import Mathlib

/-!
# EPT paging structures of `hv` (`src/hv/ept.cpp`)

A shallow embedding of the routines of `ept.cpp`: the builder `prepare_ept`,
the resynchroniser `update_ept_memory_type`, and the resolvers
`get_ept_pdpte`, `get_ept_pde` and `get_ept_pte`.

* Every paging-structure entry is a 64-bit word, held as a `Nat`; a C++
  bit-field is a pair (offset, width) read and written arithmetically.
* `ept.pds` and `ept.pds_2mb` are one array seen through two layouts
  (a C++ union), so the store keeps one word per PD entry and the two
  layouts are two families of bit-fields over that word.
* Page tables reached through `host_physical_memory_base` live in a
  word-addressed memory `physical_memory` (address of an 8-byte entry ↦ its
  value), kept apart from the store itself.
* The MTRR snapshot is an explicit argument; `calc_mtrr_mem_type`, the
  table addresses returned by `MmGetPhysicalAddress`, `ept_pd_count` and
  `host_physical_memory_base` come from headers outside `ept.cpp` and are
  parameters, bundled in `Platform`. Where a result needs it, the bound
  `ept_pd_count ≤ 512` (the PDPT has 512 slots) and the range of a memory
  type (`calc_mtrr_mem_type` returns a value below 8, the 3-bit field) are
  stated as hypotheses.
* A bit-field wider than 32 bits (the 36-bit frame numbers) keeps its 64-bit
  unsigned type, and its shift is taken modulo `2^64`. The 27-bit frame number
  of a large-page PD entry fits an `int`, so C++ promotes it to `int` before
  `<< 21`: that shift is taken in 32 bits and its result is sign-extended when
  it is passed as the 64-bit address argument (`int_shl`).
-/

namespace hv

/-! ## Bit-fields -/

/-- A C++ bit-field of a 64-bit word: `width` bits starting at bit `off`. -/
structure BitField where
  off : Nat
  width : Nat

/-- Read of a bit-field: the `width` bits of `x` from bit `off` on. -/
def BitField.get (f : BitField) (x : Nat) : Nat :=
  (x / 2 ^ f.off) % 2 ^ f.width

/-- Assignment to a bit-field: `v` is truncated to `width` bits and replaces
the field, every other bit of `x` is kept. -/
def BitField.set (f : BitField) (x v : Nat) : Nat :=
  x - f.get x * 2 ^ f.off + (v % 2 ^ f.width) * 2 ^ f.off

/-- Modelled from the spec: the union `pml4_virtual_address` (declared outside
`ept.cpp`), which splits an address by the 4-level index scheme: top index
bits 39-47, second index bits 30-38, third index bits 21-29, fourth index
bits 12-20, page offset bits 0-11. -/
def pml4_virtual_address.offset : BitField := ⟨0, 12⟩

/-- Modelled from the spec: fourth index, bits 12-20 (see `offset`). -/
def pml4_virtual_address.pt_idx : BitField := ⟨12, 9⟩

/-- Modelled from the spec: third index, bits 21-29 (see `offset`). -/
def pml4_virtual_address.pd_idx : BitField := ⟨21, 9⟩

/-- Modelled from the spec: second index, bits 30-38 (see `offset`). -/
def pml4_virtual_address.pdpt_idx : BitField := ⟨30, 9⟩

/-- Modelled from the spec: top index, bits 39-47 (see `offset`). -/
def pml4_virtual_address.pml4_idx : BitField := ⟨39, 9⟩

/-! ### Hardware entry encodings

The entry types `ept_pml4e`, `ept_pdpte`, `ept_pde`, `ept_pde_2mb` and
`ept_pte` are declared in a header outside `ept.cpp`; their bit offsets are
the ones fixed by the VT-x architecture. -/

/-- Modelled from the spec: `ept_pml4e` layout (hardware entry encoding, the
type declaration is outside `ept.cpp`): read bit 0. -/
def ept_pml4e.read_access : BitField := ⟨0, 1⟩
/-- Modelled from the spec: `ept_pml4e` write bit 1. -/
def ept_pml4e.write_access : BitField := ⟨1, 1⟩
/-- Modelled from the spec: `ept_pml4e` execute bit 2. -/
def ept_pml4e.execute_access : BitField := ⟨2, 1⟩
/-- Modelled from the spec: `ept_pml4e` accessed bit 8. -/
def ept_pml4e.accessed : BitField := ⟨8, 1⟩
/-- Modelled from the spec: `ept_pml4e` user-mode execute bit 10. -/
def ept_pml4e.user_mode_execute : BitField := ⟨10, 1⟩
/-- Modelled from the spec: `ept_pml4e` next-table frame number, bits 12-47. -/
def ept_pml4e.page_frame_number : BitField := ⟨12, 36⟩

/-- Modelled from the spec: `ept_pdpte` layout (hardware entry encoding, the
type declaration is outside `ept.cpp`): read bit 0. -/
def ept_pdpte.read_access : BitField := ⟨0, 1⟩
/-- Modelled from the spec: `ept_pdpte` write bit 1. -/
def ept_pdpte.write_access : BitField := ⟨1, 1⟩
/-- Modelled from the spec: `ept_pdpte` execute bit 2. -/
def ept_pdpte.execute_access : BitField := ⟨2, 1⟩
/-- Modelled from the spec: `ept_pdpte` accessed bit 8. -/
def ept_pdpte.accessed : BitField := ⟨8, 1⟩
/-- Modelled from the spec: `ept_pdpte` user-mode execute bit 10. -/
def ept_pdpte.user_mode_execute : BitField := ⟨10, 1⟩
/-- Modelled from the spec: `ept_pdpte` next-table frame number, bits 12-47. -/
def ept_pdpte.page_frame_number : BitField := ⟨12, 36⟩

/-- Modelled from the spec: `ept_pde` (table-state PD entry) layout, declared
outside `ept.cpp`: next-table frame number, bits 12-47. -/
def ept_pde.page_frame_number : BitField := ⟨12, 36⟩

/-- Modelled from the spec: `ept_pde_2mb` (large-page PD entry) layout,
declared outside `ept.cpp`: read bit 0. -/
def ept_pde_2mb.read_access : BitField := ⟨0, 1⟩
/-- Modelled from the spec: `ept_pde_2mb` write bit 1. -/
def ept_pde_2mb.write_access : BitField := ⟨1, 1⟩
/-- Modelled from the spec: `ept_pde_2mb` execute bit 2. -/
def ept_pde_2mb.execute_access : BitField := ⟨2, 1⟩
/-- Modelled from the spec: `ept_pde_2mb` memory type, bits 3-5. -/
def ept_pde_2mb.memory_type : BitField := ⟨3, 3⟩
/-- Modelled from the spec: `ept_pde_2mb` ignore-PAT bit 6. -/
def ept_pde_2mb.ignore_pat : BitField := ⟨6, 1⟩
/-- Modelled from the spec: `ept_pde_2mb` large-page bit 7. -/
def ept_pde_2mb.large_page : BitField := ⟨7, 1⟩
/-- Modelled from the spec: `ept_pde_2mb` accessed bit 8. -/
def ept_pde_2mb.accessed : BitField := ⟨8, 1⟩
/-- Modelled from the spec: `ept_pde_2mb` dirty bit 9. -/
def ept_pde_2mb.dirty : BitField := ⟨9, 1⟩
/-- Modelled from the spec: `ept_pde_2mb` user-mode execute bit 10. -/
def ept_pde_2mb.user_mode_execute : BitField := ⟨10, 1⟩
/-- Modelled from the spec: `ept_pde_2mb` 2MB frame number, bits 21-47. -/
def ept_pde_2mb.page_frame_number : BitField := ⟨21, 27⟩
/-- Modelled from the spec: `ept_pde_2mb` suppress-#VE bit 63. -/
def ept_pde_2mb.suppress_ve : BitField := ⟨63, 1⟩

/-- Modelled from the spec: `ept_pte` layout, declared outside `ept.cpp`:
memory type, bits 3-5. -/
def ept_pte.memory_type : BitField := ⟨3, 3⟩
/-- Modelled from the spec: `ept_pte` 4KB frame number, bits 12-47. -/
def ept_pte.page_frame_number : BitField := ⟨12, 36⟩

/-! ## The store and its environment -/

/-- The `vcpu_ept_data` store: `pml4[512]`, `pdpt[512]` and the PD array
`pds[ept_pd_count][512]` (the same words as `pds_2mb`), one 64-bit word per
entry. -/
structure vcpu_ept_data where
  pml4 : Nat → Nat
  pdpt : Nat → Nat
  pds : Nat → Nat → Nat

/-- What `ept.cpp` takes from other headers and services: the constant
`ept_pd_count`, the window base `host_physical_memory_base`, the physical
addresses `MmGetPhysicalAddress(&ept.pdpt).QuadPart` and
`MmGetPhysicalAddress(&ept.pds[i]).QuadPart`, and the MTRR service
`calc_mtrr_mem_type(mtrrs, address, size)`. -/
structure Platform (mtrr_data : Type) where
  ept_pd_count : Nat
  host_physical_memory_base : Nat
  MmGetPhysicalAddress_pdpt : Nat
  MmGetPhysicalAddress_pds : Nat → Nat
  calc_mtrr_mem_type : mtrr_data → Nat → Nat → Nat

/-- The memory seen through the physical-memory window: `word a` is the 64-bit
entry stored at address `a`. All accesses of `ept.cpp` are to `ept_pte` entries
at `host_physical_memory_base + (frame << 12) + 8 * k`. -/
structure physical_memory where
  word : Nat → Nat

/-- Store of one 64-bit entry at address `a`. -/
def physical_memory.write (mem : physical_memory) (a v : Nat) : physical_memory :=
  ⟨Function.update mem.word a v⟩

/-- A counted loop `for (size_t i = 0; i < n; ++i) body(i)` over a state. -/
def forLoop {σ : Type} (n : Nat) (body : Nat → σ → σ) (s : σ) : σ :=
  match n with
  | 0 => s
  | k + 1 => body k (forLoop k body s)

/-- Write of `ept.pds[i][j]` (equally `ept.pds_2mb[i][j]`). -/
def vcpu_ept_data.setPde (ept : vcpu_ept_data) (i j w : Nat) : vcpu_ept_data :=
  { ept with pds := Function.update ept.pds i (Function.update (ept.pds i) j w) }

/-! ## `prepare_ept` -/

/-- Lines 13-20: the value written to `ept.pml4[0]`. -/
def prepare_pml4e {M : Type} (P : Platform M) : Nat :=
  let pml4e := 0
  let pml4e := ept_pml4e.read_access.set pml4e 1
  let pml4e := ept_pml4e.write_access.set pml4e 1
  let pml4e := ept_pml4e.execute_access.set pml4e 1
  let pml4e := ept_pml4e.accessed.set pml4e 0
  let pml4e := ept_pml4e.user_mode_execute.set pml4e 1
  ept_pml4e.page_frame_number.set pml4e (P.MmGetPhysicalAddress_pdpt >>> 12)

/-- Lines 31-38: the value written to `ept.pdpt[i]`. -/
def prepare_pdpte {M : Type} (P : Platform M) (i : Nat) : Nat :=
  let pdpte := 0
  let pdpte := ept_pdpte.read_access.set pdpte 1
  let pdpte := ept_pdpte.write_access.set pdpte 1
  let pdpte := ept_pdpte.execute_access.set pdpte 1
  let pdpte := ept_pdpte.accessed.set pdpte 0
  let pdpte := ept_pdpte.user_mode_execute.set pdpte 1
  ept_pdpte.page_frame_number.set pdpte (P.MmGetPhysicalAddress_pds i >>> 12)

/-- The value `x << s` where `x` is a non-negative `int`, converted to
`uint64_t`: the left shift keeps the low 32 bits of `x * 2^s`, read as a signed
32-bit number, and the conversion to the 64-bit address parameter sign-extends
it. This is `pde.page_frame_number << 21` at lines 55 and 74, the 27-bit
bit-field being promoted to `int`. -/
def int_shl (x s : Nat) : Nat :=
  let r := (x <<< s) % 2 ^ 32
  if r < 2 ^ 31 then r else r + (2 ^ 64 - 2 ^ 32)

/-- Lines 42-55: the value written to `ept.pds_2mb[i][j]`. -/
def prepare_pde {M : Type} (P : Platform M) (mtrrs : M) (i j : Nat) : Nat :=
  let pde := 0
  let pde := ept_pde_2mb.read_access.set pde 1
  let pde := ept_pde_2mb.write_access.set pde 1
  let pde := ept_pde_2mb.execute_access.set pde 1
  let pde := ept_pde_2mb.ignore_pat.set pde 0
  let pde := ept_pde_2mb.large_page.set pde 1
  let pde := ept_pde_2mb.accessed.set pde 0
  let pde := ept_pde_2mb.dirty.set pde 0
  let pde := ept_pde_2mb.user_mode_execute.set pde 1
  let pde := ept_pde_2mb.suppress_ve.set pde 0
  let pde := ept_pde_2mb.page_frame_number.set pde (((i <<< 9) + j) % 2 ^ 64)
  ept_pde_2mb.memory_type.set pde
    (P.calc_mtrr_mem_type mtrrs
      (int_shl (ept_pde_2mb.page_frame_number.get pde) 21) (0x1000 <<< 9))

/-- Lines 40-56: the loop over the 512 entries of page directory `i`. -/
def prepare_pd {M : Type} (P : Platform M) (mtrrs : M) (i : Nat) (ept : vcpu_ept_data) :
    vcpu_ept_data :=
  forLoop 512 (fun j ept => ept.setPde i j (prepare_pde P mtrrs i j)) ept

/-- Lines 30-56: the body of the loop over the PDPT entries. -/
def prepare_pdpt_entry {M : Type} (P : Platform M) (mtrrs : M) (i : Nat)
    (ept : vcpu_ept_data) : vcpu_ept_data :=
  let ept := { ept with pdpt := Function.update ept.pdpt i (prepare_pdpte P i) }
  prepare_pd P mtrrs i ept

/-- The builder `prepare_ept(ept)`, with the MTRR snapshot read at line 23
passed in as `mtrrs`. -/
def prepare_ept {M : Type} (P : Platform M) (mtrrs : M) (_ept : vcpu_ept_data) :
    vcpu_ept_data :=
  -- memset(&ept, 0, sizeof(ept))
  let ept : vcpu_ept_data := ⟨fun _ => 0, fun _ => 0, fun _ _ => 0⟩
  let ept := { ept with pml4 := Function.update ept.pml4 0 (prepare_pml4e P) }
  forLoop P.ept_pd_count (prepare_pdpt_entry P mtrrs) ept

/-! ## `update_ept_memory_type` -/

/-- Lines 83-84: the write to `pt[k]`, for the page table at address `pt`. -/
def update_pte {M : Type} (P : Platform M) (mtrrs : M) (pt k : Nat)
    (mem : physical_memory) : physical_memory :=
  let pte := mem.word (pt + 8 * k)
  mem.write (pt + 8 * k)
    (ept_pte.memory_type.set pte
      (P.calc_mtrr_mem_type mtrrs
        ((ept_pte.page_frame_number.get pte <<< 12) % 2 ^ 64) 0x1000))

/-- Lines 82-85: the loop over the 512 entries of the page table at `pt`. -/
def update_pt {M : Type} (P : Platform M) (mtrrs : M) (pt : Nat)
    (mem : physical_memory) : physical_memory :=
  forLoop 512 (update_pte P mtrrs pt) mem

/-- Lines 68-86: the loop body for PD entry `[i][j]`, over the store and the
memory holding the page tables. -/
def update_pde {M : Type} (P : Platform M) (mtrrs : M) (i j : Nat)
    (s : vcpu_ept_data × physical_memory) : vcpu_ept_data × physical_memory :=
  let pde := s.1.pds i j
  if ept_pde_2mb.large_page.get pde ≠ 0 then
    (s.1.setPde i j
      (ept_pde_2mb.memory_type.set pde
        (P.calc_mtrr_mem_type mtrrs
          (int_shl (ept_pde_2mb.page_frame_number.get pde) 21) (0x1000 <<< 9))),
     s.2)
  else
    let pt := P.host_physical_memory_base
      + (ept_pde.page_frame_number.get (s.1.pds i j) <<< 12)
    (s.1, update_pt P mtrrs pt s.2)

/-- Lines 67-87: the loop over the 512 entries of page directory `i`. -/
def update_pd {M : Type} (P : Platform M) (mtrrs : M) (i : Nat)
    (s : vcpu_ept_data × physical_memory) : vcpu_ept_data × physical_memory :=
  forLoop 512 (update_pde P mtrrs i) s

/-- The resynchroniser `update_ept_memory_type(ept)`, with the MTRR snapshot
read at line 64 passed in as `mtrrs`; the second component is the memory seen
through the physical-memory window. -/
def update_ept_memory_type {M : Type} (P : Platform M) (mtrrs : M)
    (s : vcpu_ept_data × physical_memory) : vcpu_ept_data × physical_memory :=
  forLoop P.ept_pd_count (update_pd P mtrrs) s

/-! ## The resolvers -/

/-- Lookup `get_ept_pdpte`: `none` is `nullptr`, `some i` is `&ept.pdpt[i]`. -/
def get_ept_pdpte {M : Type} (P : Platform M) (_ept : vcpu_ept_data)
    (physical_address : Nat) : Option Nat :=
  if pml4_virtual_address.pml4_idx.get physical_address ≠ 0 then none
  else if pml4_virtual_address.pdpt_idx.get physical_address ≥ P.ept_pd_count then none
  else some (pml4_virtual_address.pdpt_idx.get physical_address)

/-- Lookup `get_ept_pde`: `none` is `nullptr`, `some (i, j)` is `&ept.pds[i][j]`. -/
def get_ept_pde {M : Type} (P : Platform M) (_ept : vcpu_ept_data)
    (physical_address : Nat) : Option (Nat × Nat) :=
  if pml4_virtual_address.pml4_idx.get physical_address ≠ 0 then none
  else if pml4_virtual_address.pdpt_idx.get physical_address ≥ P.ept_pd_count then none
  else some (pml4_virtual_address.pdpt_idx.get physical_address,
    pml4_virtual_address.pd_idx.get physical_address)

/-- Lookup `get_ept_pte`: `none` is `nullptr`, `some p` is the pointer `&pt[k]`
as the address `p` of that entry in the physical-memory window. -/
def get_ept_pte {M : Type} (P : Platform M) (ept : vcpu_ept_data)
    (physical_address : Nat) : Option Nat :=
  if pml4_virtual_address.pml4_idx.get physical_address ≠ 0 then none
  else if pml4_virtual_address.pdpt_idx.get physical_address ≥ P.ept_pd_count then none
  else
    let pde_2mb := ept.pds (pml4_virtual_address.pdpt_idx.get physical_address)
      (pml4_virtual_address.pd_idx.get physical_address)
    if ept_pde_2mb.large_page.get pde_2mb ≠ 0 then none
    else
      let pt := P.host_physical_memory_base
        + (ept_pde.page_frame_number.get
            (ept.pds (pml4_virtual_address.pdpt_idx.get physical_address)
              (pml4_virtual_address.pd_idx.get physical_address)) <<< 12)
      some (pt + 8 * pml4_virtual_address.pt_idx.get physical_address)

/-! ## Auxiliary definitions for the proofs -/

/-- What one resync pass does to a PD word (lines 71-75): a large-page entry
gets the type the MTRR service returns for `page_frame_number << 21`, a table
entry is left alone. -/
def resync_pde {M : Type} (P : Platform M) (mtrrs : M) (w : Nat) : Nat :=
  if ept_pde_2mb.large_page.get w ≠ 0 then
    ept_pde_2mb.memory_type.set w
      (P.calc_mtrr_mem_type mtrrs
        (int_shl (ept_pde_2mb.page_frame_number.get w) 21) (0x1000 <<< 9))
  else w

/-- What one resync pass does to a PT word (lines 83-84): it gets the type of
the 4KB region its own frame number names. -/
def resync_pte {M : Type} (P : Platform M) (mtrrs : M) (w : Nat) : Nat :=
  ept_pte.memory_type.set w
    (P.calc_mtrr_mem_type mtrrs ((ept_pte.page_frame_number.get w <<< 12) % 2 ^ 64) 0x1000)

/-- Address `&pt[k]` of entry `k` of the page table that the table-state PD
word `w` points to (lines 78-79 and 132-135). -/
def pte_address {M : Type} (P : Platform M) (w k : Nat) : Nat :=
  P.host_physical_memory_base + (ept_pde.page_frame_number.get w <<< 12) + 8 * k

/-- State of a resync pass that has handled the PD entries in `D`, started from
store `ept0` and memory `mem0`. -/
structure ResyncInv {M : Type} (P : Platform M) (S : M) (ept0 : vcpu_ept_data)
    (mem0 : physical_memory) (D : Nat → Nat → Prop) (s : vcpu_ept_data × physical_memory) :
    Prop where
  pml4_eq : s.1.pml4 = ept0.pml4
  pdpt_eq : s.1.pdpt = ept0.pdpt
  pds_done : ∀ i j, D i j → s.1.pds i j = resync_pde P S (ept0.pds i j)
  pds_todo : ∀ i j, ¬ D i j → s.1.pds i j = ept0.pds i j
  mem_any : ∀ a, s.2.word a = mem0.word a ∨ s.2.word a = resync_pte P S (mem0.word a)
  mem_done : ∀ i j k, D i j → ept_pde_2mb.large_page.get (ept0.pds i j) = 0 → k < 512 →
    s.2.word (pte_address P (ept0.pds i j) k) =
      resync_pte P S (mem0.word (pte_address P (ept0.pds i j) k))
  mem_rest : ∀ a,
    (∀ i j k, D i j → ept_pde_2mb.large_page.get (ept0.pds i j) = 0 → k < 512 →
      a ≠ pte_address P (ept0.pds i j) k) → s.2.word a = mem0.word a

/-! ### Concrete inputs -/

/-- A concrete platform: 2 page directories, the window at PML4 slot 255,
tables at fixed page-aligned addresses, and an MTRR service typing the first
megabyte uncacheable (0) and the rest write-back (6). -/
def demoPlatform : Platform Unit where
  ept_pd_count := 2
  host_physical_memory_base := 255 <<< 39
  MmGetPhysicalAddress_pdpt := 0x1000
  MmGetPhysicalAddress_pds := fun i => 0x2000 + i * 0x1000
  calc_mtrr_mem_type := fun _ address _ => if address < 0x100000 then 0 else 6

/-- The demo platform with an MTRR service typing every range write-back (6). -/
def uniformPlatform : Platform Unit :=
  { demoPlatform with calc_mtrr_mem_type := fun _ _ _ => 6 }

/-- The all-zero store. -/
def zeroStore : vcpu_ept_data := ⟨fun _ => 0, fun _ => 0, fun _ _ => 0⟩

/-- A built store whose PD entry `[0][0]` has been split: it is in table state
(large-page flag clear, read/write/execute and user-mode execute set) and
points to a page table in the frame at physical address `0x5000`. -/
def splitStore : vcpu_ept_data :=
  (prepare_ept demoPlatform () zeroStore).setPde 0 0 0x5407

/-- Memory in which entry 0 of the page table at physical address `0x5000`
maps frame `0x200` (read/write/execute, memory type 0); every other word is
zero. -/
def splitMem : physical_memory :=
  ⟨fun a => if a = 255 <<< 39 + 0x5000 then 0x200007 else 0⟩

/-- Memory as `splitMem`, with entry 1 of the same page table mapping frame 1,
the frame of its own position under PD entry `[0][0]`. -/
def mixedMem : physical_memory :=
  ⟨fun a => if a = 255 <<< 39 + 0x5000 then 0x200007
    else if a = 255 <<< 39 + 0x5008 then 0x1007 else 0⟩

/-- A platform with 3 page directories and an MTRR service typing addresses
below 4 GiB write-combining (1) and the rest write-back (6). -/
def threeGiBPlatform : Platform Unit where
  ept_pd_count := 3
  host_physical_memory_base := 255 <<< 39
  MmGetPhysicalAddress_pdpt := 0x1000
  MmGetPhysicalAddress_pds := fun i => 0x2000 + i * 0x1000
  calc_mtrr_mem_type := fun _ address _ => if address < 2 ^ 32 then 1 else 6

/-! ## Loops and the builder -/

theorem forLoop_zero {σ : Type} (body : Nat → σ → σ) (s : σ) : forLoop 0 body s = s := rfl

theorem forLoop_succ {σ : Type} (n : Nat) (body : Nat → σ → σ) (s : σ) :
    forLoop (n + 1) body s = body n (forLoop n body s) := rfl

theorem setPde_pds (ept : vcpu_ept_data) (i j w i' j' : Nat) :
    (ept.setPde i j w).pds i' j' = if i' = i ∧ j' = j then w else ept.pds i' j' := by
  unfold vcpu_ept_data.setPde
  by_cases hi : i' = i
  · subst hi
    by_cases hj : j' = j
    · subst hj; simp
    · simp [hj]
  · simp [hi]

/-- The inner loop of `prepare_ept` (lines 40-56) after `n` rounds. -/
theorem prepare_inner {M : Type} (P : Platform M) (S : M) (i n : Nat) (ept : vcpu_ept_data) :
    (forLoop n (fun j e => e.setPde i j (prepare_pde P S i j)) ept).pml4 = ept.pml4 ∧
    (forLoop n (fun j e => e.setPde i j (prepare_pde P S i j)) ept).pdpt = ept.pdpt ∧
    ∀ i' j', (forLoop n (fun j e => e.setPde i j (prepare_pde P S i j)) ept).pds i' j' =
      if i' = i ∧ j' < n then prepare_pde P S i j' else ept.pds i' j' := by
  induction n with
  | zero => simp [forLoop_zero]
  | succ n ih =>
    obtain ⟨h1, h2, h3⟩ := ih
    refine ⟨?_, ?_, ?_⟩
    · rw [forLoop_succ n]; exact h1
    · rw [forLoop_succ n]; exact h2
    · intro i' j'
      rw [forLoop_succ n]
      rw [setPde_pds, h3]
      by_cases hi : i' = i
      · by_cases hj : j' = n
        · subst hi; subst hj; simp
        · have : j' < n + 1 ↔ j' < n := by omega
          simp [hi, hj, this]
      · simp [hi]

theorem prepare_pdpt_entry_eq {M : Type} (P : Platform M) (S : M) (i : Nat)
    (ept : vcpu_ept_data) :
    prepare_pdpt_entry P S i ept =
      forLoop 512 (fun j e => e.setPde i j (prepare_pde P S i j))
        { ept with pdpt := Function.update ept.pdpt i (prepare_pdpte P i) } := rfl

/-- The outer loop of `prepare_ept` (lines 29-57) after `n` rounds. -/
theorem prepare_outer {M : Type} (P : Platform M) (S : M) (n : Nat) (ept : vcpu_ept_data) :
    (forLoop n (prepare_pdpt_entry P S) ept).pml4 = ept.pml4 ∧
    (∀ i, (forLoop n (prepare_pdpt_entry P S) ept).pdpt i =
      if i < n then prepare_pdpte P i else ept.pdpt i) ∧
    ∀ i j, (forLoop n (prepare_pdpt_entry P S) ept).pds i j =
      if i < n ∧ j < 512 then prepare_pde P S i j else ept.pds i j := by
  induction n with
  | zero => simp [forLoop_zero]
  | succ n ih =>
    obtain ⟨h1, h2, h3⟩ := ih
    rw [forLoop_succ n]
    rw [prepare_pdpt_entry_eq]
    refine ⟨?_, ?_, ?_⟩
    · rw [(prepare_inner P S n 512 _).1]; exact h1
    · intro i
      rw [(prepare_inner P S n 512 _).2.1]
      by_cases hi : i = n
      · subst hi; simp
      · have : i < n + 1 ↔ i < n := by omega
        simp only [Function.update_noteq hi, this]
        exact h2 i
    · intro i j
      rw [(prepare_inner P S n 512 _).2.2, h3]
      by_cases hi : i = n
      · subst hi
        by_cases hj : j < 512 <;> simp [hj]
      · have : i < n + 1 ↔ i < n := by omega
        simp [hi, this]

theorem prepare_ept_pml4 {M : Type} (P : Platform M) (S : M) (ept : vcpu_ept_data) (i : Nat) :
    (prepare_ept P S ept).pml4 i = if i = 0 then prepare_pml4e P else 0 := by
  unfold prepare_ept
  rw [(prepare_outer P S P.ept_pd_count _).1]
  by_cases hi : i = 0
  · subst hi; simp
  · simp [hi]

theorem prepare_ept_pdpt {M : Type} (P : Platform M) (S : M) (ept : vcpu_ept_data) (i : Nat) :
    (prepare_ept P S ept).pdpt i = if i < P.ept_pd_count then prepare_pdpte P i else 0 := by
  unfold prepare_ept
  rw [(prepare_outer P S P.ept_pd_count _).2.1 i]

theorem prepare_ept_pds {M : Type} (P : Platform M) (S : M) (ept : vcpu_ept_data) (i j : Nat) :
    (prepare_ept P S ept).pds i j =
      if i < P.ept_pd_count ∧ j < 512 then prepare_pde P S i j else 0 := by
  unfold prepare_ept
  rw [(prepare_outer P S P.ept_pd_count _).2.2 i j]

/-! ## The resynchroniser -/

theorem pte_pfn_set_memory_type (w v : Nat) :
    ept_pte.page_frame_number.get (ept_pte.memory_type.set w v) =
      ept_pte.page_frame_number.get w := by
  simp only [BitField.get, BitField.set, ept_pte.page_frame_number, ept_pte.memory_type]
  omega

theorem pte_memory_type_set_set (w v v' : Nat) :
    ept_pte.memory_type.set (ept_pte.memory_type.set w v) v' = ept_pte.memory_type.set w v' := by
  simp only [BitField.get, BitField.set, ept_pte.memory_type]
  omega

theorem resync_pte_idem {M : Type} (P : Platform M) (S : M) (w : Nat) :
    resync_pte P S (resync_pte P S w) = resync_pte P S w := by
  unfold resync_pte
  rw [pte_pfn_set_memory_type, pte_memory_type_set_set]

theorem update_pte_eq {M : Type} (P : Platform M) (S : M) (pt k : Nat) (mem : physical_memory) :
    (update_pte P S pt k mem).word =
      Function.update mem.word (pt + 8 * k) (resync_pte P S (mem.word (pt + 8 * k))) := rfl

/-- The page-table loop (lines 82-85) after `n` rounds, started from a memory
`mem` each word of which is the original or the resynced original. -/
theorem update_pt_rounds {M : Type} (P : Platform M) (S : M) (pt : Nat) (mem0 mem : physical_memory)
    (hinv : ∀ a, mem.word a = mem0.word a ∨ mem.word a = resync_pte P S (mem0.word a))
    (n : Nat) :
    (∀ a, (forLoop n (update_pte P S pt) mem).word a = mem0.word a ∨
      (forLoop n (update_pte P S pt) mem).word a = resync_pte P S (mem0.word a)) ∧
    (∀ k, k < n → (forLoop n (update_pte P S pt) mem).word (pt + 8 * k) =
      resync_pte P S (mem0.word (pt + 8 * k))) ∧
    (∀ a, (∀ k, k < n → a ≠ pt + 8 * k) →
      (forLoop n (update_pte P S pt) mem).word a = mem.word a) ∧
    (∀ a, mem.word a = resync_pte P S (mem0.word a) →
      (forLoop n (update_pte P S pt) mem).word a = resync_pte P S (mem0.word a)) := by
  induction n with
  | zero =>
    refine ⟨hinv, ?_, ?_, ?_⟩
    · intro k hk; omega
    · intro a _; rfl
    · intro a h; exact h
  | succ n ih =>
    obtain ⟨h1, h2, h3, h4⟩ := ih
    rw [forLoop_succ n, update_pte_eq]
    have hcur : resync_pte P S ((forLoop n (update_pte P S pt) mem).word (pt + 8 * n)) =
        resync_pte P S (mem0.word (pt + 8 * n)) := by
      rcases h1 (pt + 8 * n) with h | h
      · rw [h]
      · rw [h, resync_pte_idem]
    refine ⟨?_, ?_, ?_, ?_⟩
    · intro a
      by_cases ha : a = pt + 8 * n
      · subst ha
        rw [Function.update_same, hcur]
        exact Or.inr rfl
      · rw [Function.update_noteq ha]
        exact h1 a
    · intro k hk
      by_cases hkn : k = n
      · subst hkn
        rw [Function.update_same, hcur]
      · have hne : pt + 8 * k ≠ pt + 8 * n := by omega
        rw [Function.update_noteq hne]
        exact h2 k (by omega)
    · intro a ha
      rw [Function.update_noteq (ha n (by omega))]
      exact h3 a (fun k hk => ha k (by omega))
    · intro a ha
      by_cases han : a = pt + 8 * n
      · subst han
        rw [Function.update_same, hcur]
      · rw [Function.update_noteq han]
        exact h4 a ha

theorem update_pde_large {M : Type} (P : Platform M) (S : M) (i j : Nat)
    (s : vcpu_ept_data × physical_memory) (h : ept_pde_2mb.large_page.get (s.1.pds i j) ≠ 0) :
    update_pde P S i j s = (s.1.setPde i j (resync_pde P S (s.1.pds i j)), s.2) := by
  unfold update_pde resync_pde
  simp only [if_pos h]

theorem update_pde_table {M : Type} (P : Platform M) (S : M) (i j : Nat)
    (s : vcpu_ept_data × physical_memory) (h : ept_pde_2mb.large_page.get (s.1.pds i j) = 0) :
    update_pde P S i j s =
      (s.1, forLoop 512 (update_pte P S (P.host_physical_memory_base
        + (ept_pde.page_frame_number.get (s.1.pds i j) <<< 12))) s.2) := by
  unfold update_pde update_pt
  simp only [h, ne_eq, not_true_eq_false, if_false]

theorem resync_pde_table {M : Type} (P : Platform M) (S : M) (w : Nat)
    (h : ept_pde_2mb.large_page.get w = 0) : resync_pde P S w = w := by
  unfold resync_pde
  simp [h]

theorem resyncInv_congr {M : Type} {P : Platform M} {S : M} {ept0 : vcpu_ept_data}
    {mem0 : physical_memory} {D D' : Nat → Nat → Prop} {s : vcpu_ept_data × physical_memory}
    (h : ResyncInv P S ept0 mem0 D s) (hD : ∀ i j, D i j ↔ D' i j) :
    ResyncInv P S ept0 mem0 D' s := by
  have e : D = D' := by
    funext i j
    exact propext (hD i j)
  rw [← e]
  exact h

theorem resyncInv_init {M : Type} (P : Platform M) (S : M) (ept0 : vcpu_ept_data)
    (mem0 : physical_memory) : ResyncInv P S ept0 mem0 (fun _ _ => False) (ept0, mem0) where
  pml4_eq := rfl
  pdpt_eq := rfl
  pds_done := fun _ _ h => h.elim
  pds_todo := fun _ _ _ => rfl
  mem_any := fun _ => Or.inl rfl
  mem_done := fun _ _ _ h => h.elim
  mem_rest := fun _ _ => rfl

/-- One round of the PD loop (lines 68-86) on an entry not handled before. -/
theorem resyncInv_step {M : Type} {P : Platform M} {S : M} {ept0 : vcpu_ept_data}
    {mem0 : physical_memory} {D : Nat → Nat → Prop} {s : vcpu_ept_data × physical_memory}
    (h : ResyncInv P S ept0 mem0 D s) (i j : Nat) (hij : ¬ D i j) :
    ResyncInv P S ept0 mem0 (fun i' j' => D i' j' ∨ (i' = i ∧ j' = j))
      (update_pde P S i j s) := by
  have hcur : s.1.pds i j = ept0.pds i j := h.pds_todo i j hij
  by_cases hl : ept_pde_2mb.large_page.get (s.1.pds i j) = 0
  · rw [update_pde_table P S i j s hl]
    have hl0 : ept_pde_2mb.large_page.get (ept0.pds i j) = 0 := by rw [← hcur]; exact hl
    obtain ⟨h1, h2, h3, h4⟩ := update_pt_rounds P S (P.host_physical_memory_base
        + (ept_pde.page_frame_number.get (s.1.pds i j) <<< 12)) mem0 s.2 h.mem_any 512
    rw [hcur] at h1 h2 h3 h4 ⊢
    generalize forLoop 512 (update_pte P S (P.host_physical_memory_base
        + (ept_pde.page_frame_number.get (ept0.pds i j) <<< 12))) s.2 = m at h1 h2 h3 h4 ⊢
    refine ⟨h.pml4_eq, h.pdpt_eq, ?_, ?_, h1, ?_, ?_⟩
    · intro i' j' hd
      rcases hd with hd | ⟨rfl, rfl⟩
      · exact h.pds_done i' j' hd
      · show s.1.pds i' j' = _
        rw [hcur, resync_pde_table P S _ hl0]
    · intro i' j' hd
      exact h.pds_todo i' j' (fun hd' => hd (Or.inl hd'))
    · intro i' j' k hd hlp hk
      rcases hd with hd | ⟨rfl, rfl⟩
      · exact h4 _ (h.mem_done i' j' k hd hlp hk)
      · exact h2 k hk
    · intro a ha
      show m.word a = mem0.word a
      rw [h3 a]
      · exact h.mem_rest a (fun i' j' k hd hlp hk => ha i' j' k (Or.inl hd) hlp hk)
      · intro k hk
        exact ha i j k (Or.inr ⟨rfl, rfl⟩) hl0 hk
  · rw [update_pde_large P S i j s hl]
    have hl0 : ept_pde_2mb.large_page.get (ept0.pds i j) ≠ 0 := by rw [← hcur]; exact hl
    refine ⟨h.pml4_eq, h.pdpt_eq, ?_, ?_, h.mem_any, ?_, ?_⟩
    · intro i' j' hd
      show (s.1.setPde i j _).pds i' j' = _
      rw [setPde_pds]
      by_cases he : i' = i ∧ j' = j
      · rw [if_pos he, he.1, he.2, hcur]
      · rw [if_neg he]
        rcases hd with hd | hd
        · exact h.pds_done i' j' hd
        · exact absurd hd he
    · intro i' j' hd
      show (s.1.setPde i j _).pds i' j' = _
      rw [setPde_pds]
      have he : ¬ (i' = i ∧ j' = j) := fun he => hd (Or.inr he)
      rw [if_neg he]
      exact h.pds_todo i' j' (fun hd' => hd (Or.inl hd'))
    · intro i' j' k hd hlp hk
      rcases hd with hd | ⟨rfl, rfl⟩
      · exact h.mem_done i' j' k hd hlp hk
      · exact absurd hlp hl0
    · intro a ha
      refine h.mem_rest a (fun i' j' k hd hlp hk => ha i' j' k (Or.inl hd) hlp hk)

/-- The loop over page directory `i` (lines 67-87) after `n` rounds. -/
theorem resyncInv_pd_rounds {M : Type} {P : Platform M} {S : M} {ept0 : vcpu_ept_data}
    {mem0 : physical_memory} {s : vcpu_ept_data × physical_memory} (i : Nat)
    (h : ResyncInv P S ept0 mem0 (fun i' j' => i' < i ∧ j' < 512) s) (n : Nat) :
    ResyncInv P S ept0 mem0 (fun i' j' => (i' < i ∧ j' < 512) ∨ (i' = i ∧ j' < n))
      (forLoop n (update_pde P S i) s) := by
  induction n with
  | zero =>
    rw [forLoop_zero]
    exact resyncInv_congr h (fun i' j' => by simp)
  | succ n ih =>
    rw [forLoop_succ n]
    refine resyncInv_congr (resyncInv_step ih i n (by simp)) (fun i' j' => ?_)
    constructor
    · rintro ((h1 | h1) | h1)
      · exact Or.inl h1
      · exact Or.inr ⟨h1.1, by omega⟩
      · exact Or.inr ⟨h1.1, by omega⟩
    · rintro (h1 | h1)
      · exact Or.inl (Or.inl h1)
      · by_cases hj : j' = n
        · exact Or.inr ⟨h1.1, hj⟩
        · exact Or.inl (Or.inr ⟨h1.1, by omega⟩)

/-- The outer loop (lines 66-88) after `n` page directories. -/
theorem resyncInv_rounds {M : Type} (P : Platform M) (S : M) (ept0 : vcpu_ept_data)
    (mem0 : physical_memory) (n : Nat) :
    ResyncInv P S ept0 mem0 (fun i' j' => i' < n ∧ j' < 512)
      (forLoop n (update_pd P S) (ept0, mem0)) := by
  induction n with
  | zero =>
    rw [forLoop_zero]
    exact resyncInv_congr (resyncInv_init P S ept0 mem0) (fun i' j' => by simp)
  | succ n ih =>
    rw [forLoop_succ n]
    refine resyncInv_congr (resyncInv_pd_rounds n ih 512) (fun i' j' => ?_)
    constructor
    · rintro (h1 | h1)
      · exact ⟨by omega, h1.2⟩
      · exact ⟨by omega, h1.2⟩
    · rintro ⟨h1, h2⟩
      by_cases hi : i' = n
      · exact Or.inr ⟨hi, h2⟩
      · exact Or.inl ⟨by omega, h2⟩

theorem update_ept_memory_type_inv {M : Type} (P : Platform M) (S : M) (ept0 : vcpu_ept_data)
    (mem0 : physical_memory) :
    ResyncInv P S ept0 mem0 (fun i j => i < P.ept_pd_count ∧ j < 512)
      (update_ept_memory_type P S (ept0, mem0)) :=
  resyncInv_rounds P S ept0 mem0 P.ept_pd_count

/-! ## Bit-field facts -/

/-- The nine constant field writes of lines 43-52 give `0x487`. -/
theorem prepare_pde_flags :
    ept_pde_2mb.suppress_ve.set (ept_pde_2mb.user_mode_execute.set (ept_pde_2mb.dirty.set
      (ept_pde_2mb.accessed.set (ept_pde_2mb.large_page.set (ept_pde_2mb.ignore_pat.set
        (ept_pde_2mb.execute_access.set (ept_pde_2mb.write_access.set
          (ept_pde_2mb.read_access.set 0 1) 1) 1) 0) 1) 0) 0) 1) 0 = 0x487 := by
  decide

/-- Below frame 1024 the `int` shift by 21 does not wrap: it is the 2MB-aligned
address `frame * 2^21`. -/
theorem int_shl_21_of_lt (frame : Nat) (h : frame < 1024) :
    int_shl frame 21 = frame * 2 ^ 21 := by
  unfold int_shl
  simp only [Nat.shiftLeft_eq]
  split <;> omega

/-- The word `prepare_ept` writes to PD entry `[i][j]`, field by field. -/
theorem prepare_pde_eq {M : Type} (P : Platform M) (S : M) (i j : Nat) :
    prepare_pde P S i j = 0x487 + ((i * 512 + j) % 2 ^ 27) * 2 ^ 21
      + (P.calc_mtrr_mem_type S (int_shl ((i * 512 + j) % 2 ^ 27) 21) (2 ^ 21) % 8) * 8 := by
  have h1 : ept_pde_2mb.page_frame_number.set 0x487 (((i <<< 9) + j) % 2 ^ 64) =
      0x487 + ((i * 512 + j) % 2 ^ 27) * 2 ^ 21 := by
    simp only [BitField.get, BitField.set, ept_pde_2mb.page_frame_number, Nat.shiftLeft_eq]
    omega
  have h2 : ept_pde_2mb.page_frame_number.get (0x487 + ((i * 512 + j) % 2 ^ 27) * 2 ^ 21)
      = (i * 512 + j) % 2 ^ 27 := by
    simp only [BitField.get, ept_pde_2mb.page_frame_number]
    omega
  have h3 : (0x1000 <<< 9) = 2 ^ 21 := by decide
  simp only [prepare_pde]
  rw [prepare_pde_flags, h1, h2, h3]
  generalize P.calc_mtrr_mem_type S _ _ = t
  simp only [BitField.get, BitField.set, ept_pde_2mb.memory_type]
  omega

theorem prepare_pde_large_page {M : Type} (P : Platform M) (S : M) (i j : Nat) :
    ept_pde_2mb.large_page.get (prepare_pde P S i j) = 1 := by
  rw [prepare_pde_eq]
  generalize P.calc_mtrr_mem_type S _ _ = t
  simp only [BitField.get, ept_pde_2mb.large_page]
  omega

theorem prepare_pde_pfn {M : Type} (P : Platform M) (S : M) (i j : Nat)
    (hi : i < 512) (hj : j < 512) :
    ept_pde_2mb.page_frame_number.get (prepare_pde P S i j) = i * 512 + j := by
  rw [prepare_pde_eq]
  generalize P.calc_mtrr_mem_type S _ _ = t
  simp only [BitField.get, ept_pde_2mb.page_frame_number]
  omega

/-- The frame number stored by `prepare_ept`, for any `i` and `j`. -/
theorem prepare_pde_pfn_mod {M : Type} (P : Platform M) (S : M) (i j : Nat) :
    ept_pde_2mb.page_frame_number.get (prepare_pde P S i j) = (i * 512 + j) % 2 ^ 27 := by
  rw [prepare_pde_eq]
  generalize P.calc_mtrr_mem_type S _ _ = t
  simp only [BitField.get, ept_pde_2mb.page_frame_number]
  omega

/-- The memory type stored by `prepare_ept` for a frame below 1024, where the
`int` shift of line 55 does not wrap. -/
theorem prepare_pde_memory_type {M : Type} (P : Platform M) (S : M) (i j : Nat)
    (hf : i * 512 + j < 1024) :
    ept_pde_2mb.memory_type.get (prepare_pde P S i j) =
      P.calc_mtrr_mem_type S ((i * 512 + j) * 2 ^ 21) (2 ^ 21) % 8 := by
  rw [prepare_pde_eq]
  have e : (i * 512 + j) % 2 ^ 27 = i * 512 + j := by omega
  rw [e, int_shl_21_of_lt _ hf]
  generalize P.calc_mtrr_mem_type S _ _ = t
  simp only [BitField.get, ept_pde_2mb.memory_type]
  omega

/-- A one-bit field reads 0 or 1. -/
theorem large_page_bit (w : Nat) :
    ept_pde_2mb.large_page.get w = 0 ∨ ept_pde_2mb.large_page.get w = 1 := by
  simp only [BitField.get, ept_pde_2mb.large_page]
  omega

/-- Writing the memory type of a PD word keeps every bit outside bits 3-5. -/
theorem pde_set_memory_type_outside (w v : Nat) :
    ept_pde_2mb.memory_type.set w v / 64 = w / 64 ∧
    ept_pde_2mb.memory_type.set w v % 8 = w % 8 := by
  simp only [BitField.get, BitField.set, ept_pde_2mb.memory_type]
  omega

theorem pde_get_set_memory_type (w v : Nat) :
    ept_pde_2mb.memory_type.get (ept_pde_2mb.memory_type.set w v) = v % 8 := by
  simp only [BitField.get, BitField.set, ept_pde_2mb.memory_type]
  omega

/-- Writing the memory type of a PT word keeps every bit outside bits 3-5. -/
theorem pte_set_memory_type_outside (w v : Nat) :
    ept_pte.memory_type.set w v / 64 = w / 64 ∧
    ept_pte.memory_type.set w v % 8 = w % 8 := by
  simp only [BitField.get, BitField.set, ept_pte.memory_type]
  omega

theorem pte_get_set_memory_type (w v : Nat) :
    ept_pte.memory_type.get (ept_pte.memory_type.set w v) = v % 8 := by
  simp only [BitField.get, BitField.set, ept_pte.memory_type]
  omega

/-- Two words that agree above bit 5 and below bit 3 agree on every bit
outside bits 3-5. -/
theorem testBit_eq_outside (x y : Nat) (hhi : x / 64 = y / 64) (hlo : x % 8 = y % 8)
    (b : Nat) (hb : b < 3 ∨ 6 ≤ b) : x.testBit b = y.testBit b := by
  rcases hb with hb | hb
  · have hx := Nat.testBit_mod_two_pow x 3 b
    have hy := Nat.testBit_mod_two_pow y 3 b
    have e : x % 2 ^ 3 = y % 2 ^ 3 := hlo
    rw [e] at hx
    rw [hx] at hy
    simpa [hb] using hy
  · have hx := Nat.testBit_shiftRight (i := 6) (j := b - 6) x
    have hy := Nat.testBit_shiftRight (i := 6) (j := b - 6) y
    have e : x >>> 6 = y >>> 6 := by
      rw [Nat.shiftRight_eq_div_pow, Nat.shiftRight_eq_div_pow]
      exact hhi
    have hb6 : 6 + (b - 6) = b := by omega
    rw [hb6] at hx hy
    rw [← hx, ← hy, e]

/-- Two words that agree above bit 5 and below bit 3 agree on every bit-field
that does not overlap bits 3-5. -/
theorem get_eq_outside (x y : Nat) (hhi : x / 64 = y / 64) (hlo : x % 8 = y % 8)
    (f : BitField) (hf : f.off + f.width ≤ 3 ∨ 6 ≤ f.off) : f.get x = f.get y := by
  unfold BitField.get
  rcases hf with hf | hf
  · have key : ∀ z : Nat, z / 2 ^ f.off % 2 ^ f.width =
        (z % 8) % (2 ^ f.off * 2 ^ f.width) / 2 ^ f.off := by
      intro z
      have hd : 2 ^ f.off * 2 ^ f.width ∣ 8 := by
        rw [← pow_add]
        exact pow_dvd_pow 2 hf
      rw [Nat.mod_mod_of_dvd z hd, Nat.mod_mul_right_div_self]
    rw [key x, key y, hlo]
  · have key : ∀ z : Nat, z / 2 ^ f.off = z / 64 / 2 ^ (f.off - 6) := by
      intro z
      rw [Nat.div_div_eq_div_mul]
      have : (64 : Nat) * 2 ^ (f.off - 6) = 2 ^ f.off := by
        have h64 : (64 : Nat) = 2 ^ 6 := by norm_num
        rw [h64, ← pow_add]
        congr 1
        omega
      rw [this]
    rw [key x, key y, hhi]

/-! ## The resolvers (claims C1-C4) -/

theorem idx_lt_512 (off a : Nat) : BitField.get ⟨off, 9⟩ a < 512 := by
  simp only [BitField.get]
  omega

theorem resolvers_none {M : Type} (P : Platform M) (ept : vcpu_ept_data) (a : Nat)
    (h : pml4_virtual_address.pml4_idx.get a ≠ 0 ∨
      P.ept_pd_count ≤ pml4_virtual_address.pdpt_idx.get a) :
    get_ept_pdpte P ept a = none ∧ get_ept_pde P ept a = none ∧
      get_ept_pte P ept a = none := by
  unfold get_ept_pdpte get_ept_pde get_ept_pte
  rcases h with h | h
  · simp [h]
  · by_cases h0 : pml4_virtual_address.pml4_idx.get a ≠ 0
    · simp [h0]
    · simp [h0, h]

theorem resolvers_some {M : Type} (P : Platform M) (ept : vcpu_ept_data) (a : Nat)
    (h0 : pml4_virtual_address.pml4_idx.get a = 0)
    (h1 : pml4_virtual_address.pdpt_idx.get a < P.ept_pd_count) :
    get_ept_pdpte P ept a = some (pml4_virtual_address.pdpt_idx.get a) ∧
    get_ept_pde P ept a =
      some (pml4_virtual_address.pdpt_idx.get a, pml4_virtual_address.pd_idx.get a) := by
  unfold get_ept_pdpte get_ept_pde
  simp [h0, h1]

/-- C1: for every physical address whose top index (bits 39-47) is not 0 or
whose second index (bits 30-38) is at least `ept_pd_count`, and for every
store, `get_ept_pdpte`, `get_ept_pde` and `get_ept_pte` all return `nullptr`
(`none`). -/
theorem get_ept_not_found {M : Type} (P : Platform M) (ept : vcpu_ept_data) (a : Nat)
    (h : a / 2 ^ 39 % 2 ^ 9 ≠ 0 ∨ P.ept_pd_count ≤ a / 2 ^ 30 % 2 ^ 9) :
    get_ept_pdpte P ept a = none ∧ get_ept_pde P ept a = none ∧
      get_ept_pte P ept a = none :=
  resolvers_none P ept a h

theorem get_ept_not_found_witness :
    ((2 ^ 39 + 5) / 2 ^ 39 % 2 ^ 9 ≠ 0 ∨
      demoPlatform.ept_pd_count ≤ (2 ^ 39 + 5) / 2 ^ 30 % 2 ^ 9) ∧
    (get_ept_pdpte demoPlatform zeroStore (2 ^ 39 + 5) = none ∧
      get_ept_pde demoPlatform zeroStore (2 ^ 39 + 5) = none ∧
      get_ept_pte demoPlatform zeroStore (2 ^ 39 + 5) = none) :=
  ⟨Or.inl (by decide),
    get_ept_not_found demoPlatform zeroStore (2 ^ 39 + 5) (Or.inl (by decide))⟩

/-- C2: for every store and every physical address with top index 0 and second
index below `ept_pd_count`, `get_ept_pdpte` returns `&ept.pdpt[second index]`
and `get_ept_pde` returns `&ept.pds[second index][third index]` (third index =
bits 21-29), never `nullptr`; an address with the same bits from bit 21 upwards
gets the same results, so bits 0-20 play no part. -/
theorem get_ept_pdpte_pde_found {M : Type} (P : Platform M) (ept : vcpu_ept_data) (a : Nat)
    (h0 : a / 2 ^ 39 % 2 ^ 9 = 0) (h1 : a / 2 ^ 30 % 2 ^ 9 < P.ept_pd_count) :
    get_ept_pdpte P ept a = some (a / 2 ^ 30 % 2 ^ 9) ∧
    get_ept_pde P ept a = some (a / 2 ^ 30 % 2 ^ 9, a / 2 ^ 21 % 2 ^ 9) ∧
    ∀ b : Nat, b / 2 ^ 21 = a / 2 ^ 21 →
      get_ept_pdpte P ept b = get_ept_pdpte P ept a ∧
      get_ept_pde P ept b = get_ept_pde P ept a := by
  have key : ∀ b : Nat, b / 2 ^ 21 = a / 2 ^ 21 →
      pml4_virtual_address.pml4_idx.get b = pml4_virtual_address.pml4_idx.get a ∧
      pml4_virtual_address.pdpt_idx.get b = pml4_virtual_address.pdpt_idx.get a ∧
      pml4_virtual_address.pd_idx.get b = pml4_virtual_address.pd_idx.get a := by
    intro b hb
    simp only [BitField.get, pml4_virtual_address.pml4_idx, pml4_virtual_address.pdpt_idx,
      pml4_virtual_address.pd_idx]
    omega
  refine ⟨(resolvers_some P ept a h0 h1).1, (resolvers_some P ept a h0 h1).2, ?_⟩
  intro b hb
  obtain ⟨k0, k1, k2⟩ := key b hb
  unfold get_ept_pdpte get_ept_pde
  rw [k0, k1, k2]
  exact ⟨rfl, rfl⟩

theorem get_ept_pdpte_pde_found_witness :
    (2 ^ 30 + 3 * 2 ^ 21 + 5) / 2 ^ 39 % 2 ^ 9 = 0 ∧
    (2 ^ 30 + 3 * 2 ^ 21 + 5) / 2 ^ 30 % 2 ^ 9 < demoPlatform.ept_pd_count ∧
    (get_ept_pdpte demoPlatform zeroStore (2 ^ 30 + 3 * 2 ^ 21 + 5) =
        some ((2 ^ 30 + 3 * 2 ^ 21 + 5) / 2 ^ 30 % 2 ^ 9) ∧
      get_ept_pde demoPlatform zeroStore (2 ^ 30 + 3 * 2 ^ 21 + 5) =
        some ((2 ^ 30 + 3 * 2 ^ 21 + 5) / 2 ^ 30 % 2 ^ 9,
          (2 ^ 30 + 3 * 2 ^ 21 + 5) / 2 ^ 21 % 2 ^ 9) ∧
      ∀ b : Nat, b / 2 ^ 21 = (2 ^ 30 + 3 * 2 ^ 21 + 5) / 2 ^ 21 →
        get_ept_pdpte demoPlatform zeroStore b =
          get_ept_pdpte demoPlatform zeroStore (2 ^ 30 + 3 * 2 ^ 21 + 5) ∧
        get_ept_pde demoPlatform zeroStore b =
          get_ept_pde demoPlatform zeroStore (2 ^ 30 + 3 * 2 ^ 21 + 5)) :=
  ⟨by decide, by decide,
    get_ept_pdpte_pde_found demoPlatform zeroStore (2 ^ 30 + 3 * 2 ^ 21 + 5)
      (by decide) (by decide)⟩

/-- C3: for every store and every physical address with top index 0 and second
index below `ept_pd_count`, `get_ept_pte` returns `nullptr` exactly when the
addressed PD entry has its large-page flag set; when the flag is clear it
returns the entry at index bits 12-20 of the address in the page table at
`host_physical_memory_base + (page_frame_number << 12)` of that PD entry. -/
theorem get_ept_pte_spec {M : Type} (P : Platform M) (ept : vcpu_ept_data) (a : Nat)
    (h0 : a / 2 ^ 39 % 2 ^ 9 = 0) (h1 : a / 2 ^ 30 % 2 ^ 9 < P.ept_pd_count) :
    (get_ept_pte P ept a = none ↔
      ept_pde_2mb.large_page.get (ept.pds (a / 2 ^ 30 % 2 ^ 9) (a / 2 ^ 21 % 2 ^ 9)) = 1) ∧
    (ept_pde_2mb.large_page.get (ept.pds (a / 2 ^ 30 % 2 ^ 9) (a / 2 ^ 21 % 2 ^ 9)) = 0 →
      get_ept_pte P ept a = some (P.host_physical_memory_base
        + (ept_pde.page_frame_number.get
            (ept.pds (a / 2 ^ 30 % 2 ^ 9) (a / 2 ^ 21 % 2 ^ 9)) <<< 12)
        + 8 * (a / 2 ^ 12 % 2 ^ 9))) := by
  have e0 : pml4_virtual_address.pml4_idx.get a = 0 := h0
  have e1 : pml4_virtual_address.pdpt_idx.get a < P.ept_pd_count := h1
  have e2 : pml4_virtual_address.pdpt_idx.get a = a / 2 ^ 30 % 2 ^ 9 := rfl
  have e3 : pml4_virtual_address.pd_idx.get a = a / 2 ^ 21 % 2 ^ 9 := rfl
  have e4 : pml4_virtual_address.pt_idx.get a = a / 2 ^ 12 % 2 ^ 9 := rfl
  unfold get_ept_pte
  rw [e2] at e1
  simp only [e0, e2, e3, e4]
  generalize a / 2 ^ 30 % 2 ^ 9 = i at *
  generalize a / 2 ^ 21 % 2 ^ 9 = j at *
  generalize a / 2 ^ 12 % 2 ^ 9 = k at *
  have e5 : ¬ i ≥ P.ept_pd_count := by omega
  rcases large_page_bit (ept.pds i j) with hl | hl
  · simp [e5, hl]
  · simp [e5, hl]

theorem get_ept_pte_spec_witness :
    (2 ^ 21 + 2 ^ 12) / 2 ^ 39 % 2 ^ 9 = 0 ∧
    (2 ^ 21 + 2 ^ 12) / 2 ^ 30 % 2 ^ 9 < demoPlatform.ept_pd_count ∧
    ((get_ept_pte demoPlatform splitStore (2 ^ 21 + 2 ^ 12) = none ↔
      ept_pde_2mb.large_page.get (splitStore.pds ((2 ^ 21 + 2 ^ 12) / 2 ^ 30 % 2 ^ 9)
        ((2 ^ 21 + 2 ^ 12) / 2 ^ 21 % 2 ^ 9)) = 1) ∧
    (ept_pde_2mb.large_page.get (splitStore.pds ((2 ^ 21 + 2 ^ 12) / 2 ^ 30 % 2 ^ 9)
        ((2 ^ 21 + 2 ^ 12) / 2 ^ 21 % 2 ^ 9)) = 0 →
      get_ept_pte demoPlatform splitStore (2 ^ 21 + 2 ^ 12) =
        some (demoPlatform.host_physical_memory_base
          + (ept_pde.page_frame_number.get
              (splitStore.pds ((2 ^ 21 + 2 ^ 12) / 2 ^ 30 % 2 ^ 9)
                ((2 ^ 21 + 2 ^ 12) / 2 ^ 21 % 2 ^ 9)) <<< 12)
          + 8 * ((2 ^ 21 + 2 ^ 12) / 2 ^ 12 % 2 ^ 9)))) :=
  ⟨by decide, by decide,
    get_ept_pte_spec demoPlatform splitStore (2 ^ 21 + 2 ^ 12) (by decide) (by decide)⟩

/-- C4, counterexample: with 2 page directories the 64-bit address `2^48` lies
above both 2 GiB and 512 GiB, yet its top and second index are 0 and all
three resolvers return an entry. -/
theorem mapped_range_ignores_high_bits :
    (2 : Nat) ^ 48 < 2 ^ 64 ∧ 2 ^ 39 ≤ (2 : Nat) ^ 48 ∧
    demoPlatform.ept_pd_count * 2 ^ 30 ≤ 2 ^ 48 ∧
    get_ept_pdpte demoPlatform zeroStore (2 ^ 48) = some 0 ∧
    get_ept_pde demoPlatform zeroStore (2 ^ 48) = some (0, 0) ∧
    get_ept_pte demoPlatform zeroStore (2 ^ 48) = some (255 * 2 ^ 39) := by
  decide

/-- C4, amended: with `ept_pd_count ≤ 512`, for every physical address `a`
below `2^48` the resolvers `get_ept_pdpte` and `get_ept_pde` return an entry if
`a < ept_pd_count * 2^30` and `nullptr` if `a ≥ ept_pd_count * 2^30`, and every
such address at or above 512 GiB is `nullptr` in all three resolvers. -/
theorem mapped_range_below_48_bits {M : Type} (P : Platform M) (ept : vcpu_ept_data) (a : Nat)
    (hpd : P.ept_pd_count ≤ 512) (ha : a < 2 ^ 48) :
    (a < P.ept_pd_count * 2 ^ 30 →
      get_ept_pdpte P ept a = some (a / 2 ^ 30) ∧
      get_ept_pde P ept a = some (a / 2 ^ 30, a / 2 ^ 21 % 2 ^ 9)) ∧
    (P.ept_pd_count * 2 ^ 30 ≤ a →
      get_ept_pdpte P ept a = none ∧ get_ept_pde P ept a = none ∧
      get_ept_pte P ept a = none) ∧
    (2 ^ 39 ≤ a →
      get_ept_pdpte P ept a = none ∧ get_ept_pde P ept a = none ∧
      get_ept_pte P ept a = none) := by
  have e0 : pml4_virtual_address.pml4_idx.get a = a / 2 ^ 39 % 2 ^ 9 := rfl
  have e1 : pml4_virtual_address.pdpt_idx.get a = a / 2 ^ 30 % 2 ^ 9 := rfl
  have e2 : pml4_virtual_address.pd_idx.get a = a / 2 ^ 21 % 2 ^ 9 := rfl
  refine ⟨?_, ?_, ?_⟩
  · intro hlt
    have h0 : pml4_virtual_address.pml4_idx.get a = 0 := by rw [e0]; omega
    have h1 : pml4_virtual_address.pdpt_idx.get a < P.ept_pd_count := by rw [e1]; omega
    have h2 : a / 2 ^ 30 % 2 ^ 9 = a / 2 ^ 30 := by omega
    have := resolvers_some P ept a h0 h1
    rw [e1, e2, h2] at this
    exact this
  · intro hge
    apply resolvers_none
    rw [e0, e1]
    omega
  · intro hge
    apply resolvers_none
    rw [e0]
    omega

theorem mapped_range_below_48_bits_witness :
    demoPlatform.ept_pd_count ≤ 512 ∧ 2 ^ 30 + 2 ^ 21 < 2 ^ 48 ∧
    ((2 ^ 30 + 2 ^ 21 < demoPlatform.ept_pd_count * 2 ^ 30 →
      get_ept_pdpte demoPlatform zeroStore (2 ^ 30 + 2 ^ 21) =
        some ((2 ^ 30 + 2 ^ 21) / 2 ^ 30) ∧
      get_ept_pde demoPlatform zeroStore (2 ^ 30 + 2 ^ 21) =
        some ((2 ^ 30 + 2 ^ 21) / 2 ^ 30, (2 ^ 30 + 2 ^ 21) / 2 ^ 21 % 2 ^ 9)) ∧
    (demoPlatform.ept_pd_count * 2 ^ 30 ≤ 2 ^ 30 + 2 ^ 21 →
      get_ept_pdpte demoPlatform zeroStore (2 ^ 30 + 2 ^ 21) = none ∧
      get_ept_pde demoPlatform zeroStore (2 ^ 30 + 2 ^ 21) = none ∧
      get_ept_pte demoPlatform zeroStore (2 ^ 30 + 2 ^ 21) = none) ∧
    (2 ^ 39 ≤ 2 ^ 30 + 2 ^ 21 →
      get_ept_pdpte demoPlatform zeroStore (2 ^ 30 + 2 ^ 21) = none ∧
      get_ept_pde demoPlatform zeroStore (2 ^ 30 + 2 ^ 21) = none ∧
      get_ept_pte demoPlatform zeroStore (2 ^ 30 + 2 ^ 21) = none)) :=
  ⟨by decide, by decide,
    mapped_range_below_48_bits demoPlatform zeroStore (2 ^ 30 + 2 ^ 21)
      (by decide) (by decide)⟩

/-! ## The builder (claims C5-C7) -/

/-- C5: after `prepare_ept` on any store and any MTRR snapshot, for every
physical address in the mapped range (top index 0, second index below
`ept_pd_count`), `get_ept_pde` returns an entry whose large-page flag is set
and `get_ept_pte` returns `nullptr`. -/
theorem prepare_ept_large_pages {M : Type} (P : Platform M) (S : M) (ept : vcpu_ept_data)
    (a : Nat) (h0 : a / 2 ^ 39 % 2 ^ 9 = 0) (h1 : a / 2 ^ 30 % 2 ^ 9 < P.ept_pd_count) :
    get_ept_pde P (prepare_ept P S ept) a = some (a / 2 ^ 30 % 2 ^ 9, a / 2 ^ 21 % 2 ^ 9) ∧
    ept_pde_2mb.large_page.get
      ((prepare_ept P S ept).pds (a / 2 ^ 30 % 2 ^ 9) (a / 2 ^ 21 % 2 ^ 9)) = 1 ∧
    get_ept_pte P (prepare_ept P S ept) a = none := by
  have hl : ept_pde_2mb.large_page.get
      ((prepare_ept P S ept).pds (a / 2 ^ 30 % 2 ^ 9) (a / 2 ^ 21 % 2 ^ 9)) = 1 := by
    rw [prepare_ept_pds, if_pos ⟨h1, idx_lt_512 21 a⟩]
    exact prepare_pde_large_page P S _ _
  refine ⟨(resolvers_some P _ a h0 h1).2, hl, ?_⟩
  have e0 : pml4_virtual_address.pml4_idx.get a = 0 := h0
  have e2 : pml4_virtual_address.pdpt_idx.get a = a / 2 ^ 30 % 2 ^ 9 := rfl
  have e3 : pml4_virtual_address.pd_idx.get a = a / 2 ^ 21 % 2 ^ 9 := rfl
  unfold get_ept_pte
  simp only [e0, e2, e3]
  generalize a / 2 ^ 30 % 2 ^ 9 = i at *
  generalize a / 2 ^ 21 % 2 ^ 9 = j at *
  have e5 : ¬ i ≥ P.ept_pd_count := by omega
  simp [e5, hl]

theorem prepare_ept_large_pages_witness :
    (2 ^ 30 + 3 * 2 ^ 21 + 5) / 2 ^ 39 % 2 ^ 9 = 0 ∧
    (2 ^ 30 + 3 * 2 ^ 21 + 5) / 2 ^ 30 % 2 ^ 9 < demoPlatform.ept_pd_count ∧
    (get_ept_pde demoPlatform (prepare_ept demoPlatform () zeroStore) (2 ^ 30 + 3 * 2 ^ 21 + 5) =
        some ((2 ^ 30 + 3 * 2 ^ 21 + 5) / 2 ^ 30 % 2 ^ 9,
          (2 ^ 30 + 3 * 2 ^ 21 + 5) / 2 ^ 21 % 2 ^ 9) ∧
      ept_pde_2mb.large_page.get
        ((prepare_ept demoPlatform () zeroStore).pds ((2 ^ 30 + 3 * 2 ^ 21 + 5) / 2 ^ 30 % 2 ^ 9)
          ((2 ^ 30 + 3 * 2 ^ 21 + 5) / 2 ^ 21 % 2 ^ 9)) = 1 ∧
      get_ept_pte demoPlatform (prepare_ept demoPlatform () zeroStore)
        (2 ^ 30 + 3 * 2 ^ 21 + 5) = none) :=
  ⟨by decide, by decide,
    prepare_ept_large_pages demoPlatform () zeroStore (2 ^ 30 + 3 * 2 ^ 21 + 5)
      (by decide) (by decide)⟩

/-- C6: with `ept_pd_count ≤ 512`, `prepare_ept` builds an identity map: for
`i < ept_pd_count` and `j < 512` the PD entry `[i][j]` stores
`page_frame_number = i*512 + j` untruncated, and `page_frame_number << 21`
stays below `2^64` and equals `i*2^30 + j*2^21`; and for every address `a`
below `ept_pd_count` GiB the entry `get_ept_pde` returns maps the 2MB region
starting at `a` with its low 21 bits cleared. -/
theorem prepare_ept_identity_map {M : Type} (P : Platform M) (S : M) (ept : vcpu_ept_data)
    (hpd : P.ept_pd_count ≤ 512) :
    (∀ i j, i < P.ept_pd_count → j < 512 →
      ept_pde_2mb.page_frame_number.get ((prepare_ept P S ept).pds i j) = i * 512 + j ∧
      ept_pde_2mb.page_frame_number.get ((prepare_ept P S ept).pds i j) <<< 21 < 2 ^ 64 ∧
      ept_pde_2mb.page_frame_number.get ((prepare_ept P S ept).pds i j) <<< 21 =
        i * 2 ^ 30 + j * 2 ^ 21) ∧
    (∀ a, a < P.ept_pd_count * 2 ^ 30 →
      ∃ i j, get_ept_pde P (prepare_ept P S ept) a = some (i, j) ∧
        ept_pde_2mb.page_frame_number.get ((prepare_ept P S ept).pds i j) <<< 21 =
          a - a % 2 ^ 21) := by
  have hpfn : ∀ i j, i < P.ept_pd_count → j < 512 →
      ept_pde_2mb.page_frame_number.get ((prepare_ept P S ept).pds i j) = i * 512 + j := by
    intro i j hi hj
    rw [prepare_ept_pds, if_pos ⟨hi, hj⟩]
    exact prepare_pde_pfn P S i j (by omega) hj
  refine ⟨?_, ?_⟩
  · intro i j hi hj
    rw [hpfn i j hi hj, Nat.shiftLeft_eq]
    refine ⟨rfl, ?_, ?_⟩ <;> omega
  · intro a ha
    have h0 : pml4_virtual_address.pml4_idx.get a = 0 := by
      show a / 2 ^ 39 % 2 ^ 9 = 0
      omega
    have h1 : pml4_virtual_address.pdpt_idx.get a < P.ept_pd_count := by
      show a / 2 ^ 30 % 2 ^ 9 < P.ept_pd_count
      omega
    refine ⟨a / 2 ^ 30 % 2 ^ 9, a / 2 ^ 21 % 2 ^ 9, (resolvers_some P _ a h0 h1).2, ?_⟩
    have h2 : a / 2 ^ 30 % 2 ^ 9 < P.ept_pd_count := h1
    have h3 : a / 2 ^ 21 % 2 ^ 9 < 512 := idx_lt_512 21 a
    rw [hpfn (a / 2 ^ 30 % 2 ^ 9) (a / 2 ^ 21 % 2 ^ 9) h2 h3, Nat.shiftLeft_eq]
    omega

theorem prepare_ept_identity_map_witness :
    demoPlatform.ept_pd_count ≤ 512 ∧
    ((∀ i j, i < demoPlatform.ept_pd_count → j < 512 →
      ept_pde_2mb.page_frame_number.get ((prepare_ept demoPlatform () zeroStore).pds i j) =
        i * 512 + j ∧
      ept_pde_2mb.page_frame_number.get ((prepare_ept demoPlatform () zeroStore).pds i j)
        <<< 21 < 2 ^ 64 ∧
      ept_pde_2mb.page_frame_number.get ((prepare_ept demoPlatform () zeroStore).pds i j)
        <<< 21 = i * 2 ^ 30 + j * 2 ^ 21) ∧
    (∀ a, a < demoPlatform.ept_pd_count * 2 ^ 30 →
      ∃ i j, get_ept_pde demoPlatform (prepare_ept demoPlatform () zeroStore) a = some (i, j) ∧
        ept_pde_2mb.page_frame_number.get ((prepare_ept demoPlatform () zeroStore).pds i j)
          <<< 21 = a - a % 2 ^ 21)) :=
  ⟨by decide, prepare_ept_identity_map demoPlatform () zeroStore (by decide)⟩

/-- A memory type returned by the demo MTRR service fits the 3-bit field. -/
theorem demoPlatform_calc_lt (a l : Nat) : demoPlatform.calc_mtrr_mem_type () a l < 8 := by
  show (if a < 0x100000 then 0 else 6) < 8
  split <;> omega

/-- C7, the code at a failing input: with 3 page directories and an MTRR
service typing addresses below 4 GiB as 1 and all others as 6, `prepare_ept`
stores the word `0x800004b7`, memory type 6, in PD entry `[2][0]`: line 55
shifts frame 1024 as an `int` and passes the address `0xffffffff80000000`,
while the type of the 2MB span that the entry maps,
`calc_mtrr_mem_type(S, (2*512 + 0) * 2^21, 2^21)`, is 1. -/
theorem prepare_ept_memory_type_int_shift :
    2 < threeGiBPlatform.ept_pd_count ∧ threeGiBPlatform.ept_pd_count ≤ 512 ∧
    ept_pde_2mb.page_frame_number.get
      ((prepare_ept threeGiBPlatform () zeroStore).pds 2 0) = 2 * 512 + 0 ∧
    int_shl (2 * 512 + 0) 21 = 0xffffffff80000000 ∧
    (prepare_ept threeGiBPlatform () zeroStore).pds 2 0 = 0x800004b7 ∧
    ept_pde_2mb.memory_type.get ((prepare_ept threeGiBPlatform () zeroStore).pds 2 0) = 6 ∧
    threeGiBPlatform.calc_mtrr_mem_type () ((2 * 512 + 0) * 2 ^ 21) (2 ^ 21) = 1 ∧
    ept_pde_2mb.memory_type.get ((prepare_ept threeGiBPlatform () zeroStore).pds 2 0) ≠
      threeGiBPlatform.calc_mtrr_mem_type () ((2 * 512 + 0) * 2 ^ 21) (2 ^ 21) := by
  have hw : (prepare_ept threeGiBPlatform () zeroStore).pds 2 0 = 0x800004b7 := by
    rw [prepare_ept_pds, if_pos ⟨by decide, by decide⟩]
    decide
  rw [hw]
  decide

/-! ## The resynchroniser (claims C8-C10) -/

theorem resync_pde_outside {M : Type} (P : Platform M) (S : M) (w : Nat) :
    resync_pde P S w / 64 = w / 64 ∧ resync_pde P S w % 8 = w % 8 := by
  unfold resync_pde
  split
  · exact pde_set_memory_type_outside w _
  · exact ⟨rfl, rfl⟩

theorem resync_pte_outside {M : Type} (P : Platform M) (S : M) (w : Nat) :
    resync_pte P S w / 64 = w / 64 ∧ resync_pte P S w % 8 = w % 8 :=
  pte_set_memory_type_outside w _

/-- Every PD word after `update_ept_memory_type`. -/
theorem update_pds {M : Type} (P : Platform M) (S : M) (ept : vcpu_ept_data)
    (mem : physical_memory) (i j : Nat) :
    (update_ept_memory_type P S (ept, mem)).1.pds i j = ept.pds i j ∨
    (i < P.ept_pd_count ∧ j < 512 ∧
      (update_ept_memory_type P S (ept, mem)).1.pds i j = resync_pde P S (ept.pds i j)) := by
  by_cases h : i < P.ept_pd_count ∧ j < 512
  · exact Or.inr ⟨h.1, h.2, (update_ept_memory_type_inv P S ept mem).pds_done i j h⟩
  · exact Or.inl ((update_ept_memory_type_inv P S ept mem).pds_todo i j h)

theorem update_pds_outside {M : Type} (P : Platform M) (S : M) (ept : vcpu_ept_data)
    (mem : physical_memory) (i j : Nat) :
    (update_ept_memory_type P S (ept, mem)).1.pds i j / 64 = ept.pds i j / 64 ∧
    (update_ept_memory_type P S (ept, mem)).1.pds i j % 8 = ept.pds i j % 8 := by
  rcases update_pds P S ept mem i j with h | ⟨_, _, h⟩
  · rw [h]; exact ⟨rfl, rfl⟩
  · rw [h]; exact resync_pde_outside P S _

theorem update_mem_outside {M : Type} (P : Platform M) (S : M) (ept : vcpu_ept_data)
    (mem : physical_memory) (a : Nat) :
    (update_ept_memory_type P S (ept, mem)).2.word a / 64 = mem.word a / 64 ∧
    (update_ept_memory_type P S (ept, mem)).2.word a % 8 = mem.word a % 8 := by
  rcases (update_ept_memory_type_inv P S ept mem).mem_any a with h | h
  · rw [h]; exact ⟨rfl, rfl⟩
  · rw [h]; exact resync_pte_outside P S _

/-- After the pass a PTE under a split PD entry carries the type of the 4KB
region named by its own frame number. -/
theorem update_pte_type {M : Type} (P : Platform M) (S : M) (ept : vcpu_ept_data)
    (mem : physical_memory) (i j k : Nat) (hi : i < P.ept_pd_count) (hj : j < 512)
    (hl : ept_pde_2mb.large_page.get (ept.pds i j) = 0) (hk : k < 512) :
    ept_pte.memory_type.get
        ((update_ept_memory_type P S (ept, mem)).2.word (pte_address P (ept.pds i j) k)) =
      P.calc_mtrr_mem_type S
        (ept_pte.page_frame_number.get (mem.word (pte_address P (ept.pds i j) k)) <<< 12)
        4096 % 8 ∧
    ept_pte.page_frame_number.get
        ((update_ept_memory_type P S (ept, mem)).2.word (pte_address P (ept.pds i j) k)) =
      ept_pte.page_frame_number.get (mem.word (pte_address P (ept.pds i j) k)) := by
  rw [(update_ept_memory_type_inv P S ept mem).mem_done i j k ⟨hi, hj⟩ hl hk]
  unfold resync_pte
  rw [pte_get_set_memory_type, pte_pfn_set_memory_type]
  refine ⟨?_, rfl⟩
  have e :
      (ept_pte.page_frame_number.get (mem.word (pte_address P (ept.pds i j) k)) <<< 12)
        % 2 ^ 64
      = ept_pte.page_frame_number.get (mem.word (pte_address P (ept.pds i j) k)) <<< 12 := by
    generalize mem.word (pte_address P (ept.pds i j) k) = w
    simp only [BitField.get, ept_pte.page_frame_number, Nat.shiftLeft_eq]
    omega
  rw [e]

/-- After the pass a large-page PD entry carries the type the MTRR service
returns for `page_frame_number << 21`, the shift of line 74. -/
theorem update_pde_type {M : Type} (P : Platform M) (S : M) (ept : vcpu_ept_data)
    (mem : physical_memory) (i j : Nat) (hi : i < P.ept_pd_count) (hj : j < 512)
    (hl : ept_pde_2mb.large_page.get (ept.pds i j) = 1) :
    ept_pde_2mb.memory_type.get ((update_ept_memory_type P S (ept, mem)).1.pds i j) =
      P.calc_mtrr_mem_type S
        (int_shl (ept_pde_2mb.page_frame_number.get (ept.pds i j)) 21) (2 ^ 21) % 8 := by
  rw [(update_ept_memory_type_inv P S ept mem).pds_done i j ⟨hi, hj⟩]
  unfold resync_pde
  have hl' : ept_pde_2mb.large_page.get (ept.pds i j) ≠ 0 := by omega
  rw [if_pos hl', pde_get_set_memory_type]
  have e2 : (0x1000 <<< 9) = 2 ^ 21 := by decide
  rw [e2]

theorem splitStore_pds (i j : Nat) :
    splitStore.pds i j =
      if i = 0 ∧ j = 0 then 0x5407 else (prepare_ept demoPlatform () zeroStore).pds i j := by
  unfold splitStore
  rw [setPde_pds]

theorem splitStore_built (i j : Nat) :
    splitStore.pds i j = (prepare_ept demoPlatform () zeroStore).pds i j ∨
      ept_pde_2mb.large_page.get (splitStore.pds i j) = 0 := by
  rw [splitStore_pds]
  by_cases h : i = 0 ∧ j = 0
  · rw [if_pos h]
    exact Or.inr (by decide)
  · rw [if_neg h]
    exact Or.inl rfl

/-- C8, counterexample: in the built store whose PD entry `[0][0]` has been
split, PTE 0 of the page table maps frame `0x200`; after the pass it holds the
type of that frame's region (6, write-back), not the type 0 that
`calc_mtrr_mem_type` gives for the region `((0*512 + 0)*512 + 0) * 4096`. -/
theorem resync_pte_type_follows_frame :
    (∀ i j, splitStore.pds i j = (prepare_ept demoPlatform () zeroStore).pds i j ∨
      ept_pde_2mb.large_page.get (splitStore.pds i j) = 0) ∧
    ept_pde_2mb.large_page.get (splitStore.pds 0 0) = 0 ∧
    ept_pte.page_frame_number.get
      (splitMem.word (pte_address demoPlatform (splitStore.pds 0 0) 0)) = 0x200 ∧
    ept_pte.memory_type.get
      ((update_ept_memory_type demoPlatform () (splitStore, splitMem)).2.word
        (pte_address demoPlatform (splitStore.pds 0 0) 0)) = 6 ∧
    demoPlatform.calc_mtrr_mem_type () (((0 * 512 + 0) * 512 + 0) * 4096) 4096 = 0 ∧
    ept_pte.memory_type.get
      ((update_ept_memory_type demoPlatform () (splitStore, splitMem)).2.word
        (pte_address demoPlatform (splitStore.pds 0 0) 0)) ≠
      demoPlatform.calc_mtrr_mem_type () (((0 * 512 + 0) * 512 + 0) * 4096) 4096 := by
  have hw : splitStore.pds 0 0 = 0x5407 := by
    rw [splitStore_pds]
    rfl
  have hl : ept_pde_2mb.large_page.get (splitStore.pds 0 0) = 0 := by
    rw [hw]
    decide
  have h6 : ept_pte.memory_type.get
      ((update_ept_memory_type demoPlatform () (splitStore, splitMem)).2.word
        (pte_address demoPlatform (splitStore.pds 0 0) 0)) = 6 := by
    rw [(update_ept_memory_type_inv demoPlatform () splitStore splitMem).mem_done 0 0 0
      ⟨by decide, by decide⟩ hl (by decide), hw]
    decide
  refine ⟨splitStore_built, hl, ?_, h6, by decide, ?_⟩
  · rw [hw]
    decide
  · rw [h6]
    decide

/-- C8, amended: after `update_ept_memory_type` with snapshot `S` (an MTRR
service returning memory types, values below 8) on a built store in which any
subset of PD entries has since been split, with arbitrary PTE contents, every
PTE `k` under a split PD entry `[i][j]` holds
`calc_mtrr_mem_type(S, pfn << 12, 4096)` for its own frame number `pfn`, which
the pass does not change; this is the type of the region
`((i*512 + j)*512 + k) * 4096` when the PTE maps that frame; and every
large-page PD entry `[i][j]` with frame `i*512 + j` below 1024 holds
`calc_mtrr_mem_type(S, (i*512 + j) * 2^21, 2^21)`. -/
theorem resync_memory_types {M : Type} (P : Platform M) (S S0 : M)
    (e0 ept : vcpu_ept_data) (mem : physical_memory)
    (hcalc : ∀ a l, P.calc_mtrr_mem_type S a l < 8)
    (hbuilt : ∀ i j, ept.pds i j = (prepare_ept P S0 e0).pds i j ∨
      ept_pde_2mb.large_page.get (ept.pds i j) = 0)
    (i j : Nat) (hi : i < P.ept_pd_count) (hj : j < 512) :
    (ept_pde_2mb.large_page.get (ept.pds i j) = 0 → ∀ k, k < 512 →
      ept_pte.memory_type.get
          ((update_ept_memory_type P S (ept, mem)).2.word (pte_address P (ept.pds i j) k)) =
        P.calc_mtrr_mem_type S
          (ept_pte.page_frame_number.get
            ((update_ept_memory_type P S (ept, mem)).2.word (pte_address P (ept.pds i j) k))
              <<< 12) 4096 ∧
      ept_pte.page_frame_number.get
          ((update_ept_memory_type P S (ept, mem)).2.word (pte_address P (ept.pds i j) k)) =
        ept_pte.page_frame_number.get (mem.word (pte_address P (ept.pds i j) k)) ∧
      (ept_pte.page_frame_number.get (mem.word (pte_address P (ept.pds i j) k)) =
          (i * 512 + j) * 512 + k →
        ept_pte.memory_type.get
            ((update_ept_memory_type P S (ept, mem)).2.word (pte_address P (ept.pds i j) k)) =
          P.calc_mtrr_mem_type S (((i * 512 + j) * 512 + k) * 4096) 4096)) ∧
    (ept_pde_2mb.large_page.get (ept.pds i j) = 1 → i * 512 + j < 1024 →
      ept_pde_2mb.memory_type.get ((update_ept_memory_type P S (ept, mem)).1.pds i j) =
        P.calc_mtrr_mem_type S ((i * 512 + j) * 2 ^ 21) (2 ^ 21)) := by
  refine ⟨?_, ?_⟩
  · intro hl k hk
    obtain ⟨h1, h2⟩ := update_pte_type P S ept mem i j k hi hj hl hk
    rw [Nat.mod_eq_of_lt (hcalc _ _)] at h1
    refine ⟨?_, h2, ?_⟩
    · rw [h2]; exact h1
    · intro hid
      rw [h1, hid, Nat.shiftLeft_eq]
  · intro hl hf
    have h1 := update_pde_type P S ept mem i j hi hj hl
    rw [Nat.mod_eq_of_lt (hcalc _ _)] at h1
    rw [h1]
    have hb : ept.pds i j = (prepare_ept P S0 e0).pds i j := by
      rcases hbuilt i j with h | h
      · exact h
      · omega
    have hm : (i * 512 + j) % 2 ^ 27 = i * 512 + j := by omega
    rw [hb, prepare_ept_pds, if_pos ⟨hi, hj⟩, prepare_pde_pfn_mod P S0 i j, hm,
      int_shl_21_of_lt _ hf]

theorem resync_memory_types_witness :
    (∀ a l, demoPlatform.calc_mtrr_mem_type () a l < 8) ∧
    (∀ i j, splitStore.pds i j = (prepare_ept demoPlatform () zeroStore).pds i j ∨
      ept_pde_2mb.large_page.get (splitStore.pds i j) = 0) ∧
    ept_pde_2mb.large_page.get (splitStore.pds 0 0) = 0 ∧
    (ept_pte.memory_type.get
        ((update_ept_memory_type demoPlatform () (splitStore, mixedMem)).2.word
          (pte_address demoPlatform (splitStore.pds 0 0) 0)) =
      demoPlatform.calc_mtrr_mem_type ()
        (ept_pte.page_frame_number.get
          ((update_ept_memory_type demoPlatform () (splitStore, mixedMem)).2.word
            (pte_address demoPlatform (splitStore.pds 0 0) 0)) <<< 12) 4096 ∧
      ept_pte.page_frame_number.get
          ((update_ept_memory_type demoPlatform () (splitStore, mixedMem)).2.word
            (pte_address demoPlatform (splitStore.pds 0 0) 0)) =
        ept_pte.page_frame_number.get
          (mixedMem.word (pte_address demoPlatform (splitStore.pds 0 0) 0))) ∧
    ept_pte.page_frame_number.get
      (mixedMem.word (pte_address demoPlatform (splitStore.pds 0 0) 0)) = 0x200 ∧
    ept_pte.page_frame_number.get
      (mixedMem.word (pte_address demoPlatform (splitStore.pds 0 0) 1)) =
        (0 * 512 + 0) * 512 + 1 ∧
    ept_pte.memory_type.get
        ((update_ept_memory_type demoPlatform () (splitStore, mixedMem)).2.word
          (pte_address demoPlatform (splitStore.pds 0 0) 1)) =
      demoPlatform.calc_mtrr_mem_type () (((0 * 512 + 0) * 512 + 1) * 4096) 4096 ∧
    demoPlatform.calc_mtrr_mem_type () (((0 * 512 + 0) * 512 + 1) * 4096) 4096 = 0 ∧
    ept_pde_2mb.large_page.get (splitStore.pds 0 1) = 1 ∧
    0 * 512 + 1 < 1024 ∧
    ept_pde_2mb.memory_type.get
        ((update_ept_memory_type demoPlatform () (splitStore, mixedMem)).1.pds 0 1) =
      demoPlatform.calc_mtrr_mem_type () ((0 * 512 + 1) * 2 ^ 21) (2 ^ 21) ∧
    demoPlatform.calc_mtrr_mem_type () ((0 * 512 + 1) * 2 ^ 21) (2 ^ 21) = 6 := by
  have hw : splitStore.pds 0 0 = 0x5407 := by
    rw [splitStore_pds]
    rfl
  have hl0 : ept_pde_2mb.large_page.get (splitStore.pds 0 0) = 0 := by
    rw [hw]
    decide
  have hl1 : ept_pde_2mb.large_page.get (splitStore.pds 0 1) = 1 := by
    rw [splitStore_pds, if_neg (by decide), prepare_ept_pds, if_pos ⟨by decide, by decide⟩]
    exact prepare_pde_large_page demoPlatform () 0 1
  have hp0 : ept_pte.page_frame_number.get
      (mixedMem.word (pte_address demoPlatform (splitStore.pds 0 0) 0)) = 0x200 := by
    rw [hw]
    decide
  have hp1 : ept_pte.page_frame_number.get
      (mixedMem.word (pte_address demoPlatform (splitStore.pds 0 0) 1)) =
        (0 * 512 + 0) * 512 + 1 := by
    rw [hw]
    decide
  have h00 := resync_memory_types demoPlatform () () zeroStore splitStore mixedMem
    demoPlatform_calc_lt splitStore_built 0 0 (by decide) (by decide)
  have h01 := resync_memory_types demoPlatform () () zeroStore splitStore mixedMem
    demoPlatform_calc_lt splitStore_built 0 1 (by decide) (by decide)
  exact ⟨demoPlatform_calc_lt, splitStore_built, hl0,
    ⟨(h00.1 hl0 0 (by decide)).1, (h00.1 hl0 0 (by decide)).2.1⟩, hp0, hp1,
    (h00.1 hl0 1 (by decide)).2.2 hp1, by decide, hl1, by decide,
    h01.2 hl1 (by decide), by decide⟩

/-- C9: `update_ept_memory_type` changes nothing but memory-type fields (bits
3-5 of a PD or PT entry): for every store, memory and snapshot, every PML4 and
PDPT entry is unchanged, every table-state PD entry is bit-identical, every PD
entry and every word of the page-table memory keeps all bits outside bits 3-5,
and so every bit-field that does not overlap bits 3-5 (large-page flag,
permission bits, frame number) reads as before. -/
theorem update_changes_only_memory_type {M : Type} (P : Platform M) (S : M)
    (ept : vcpu_ept_data) (mem : physical_memory) :
    (update_ept_memory_type P S (ept, mem)).1.pml4 = ept.pml4 ∧
    (update_ept_memory_type P S (ept, mem)).1.pdpt = ept.pdpt ∧
    (∀ i j, ept_pde_2mb.large_page.get (ept.pds i j) = 0 →
      (update_ept_memory_type P S (ept, mem)).1.pds i j = ept.pds i j) ∧
    (∀ i j b, b < 3 ∨ 6 ≤ b →
      ((update_ept_memory_type P S (ept, mem)).1.pds i j).testBit b =
        (ept.pds i j).testBit b) ∧
    (∀ a b, b < 3 ∨ 6 ≤ b →
      ((update_ept_memory_type P S (ept, mem)).2.word a).testBit b = (mem.word a).testBit b) ∧
    (∀ f : BitField, f.off + f.width ≤ 3 ∨ 6 ≤ f.off →
      (∀ i j, f.get ((update_ept_memory_type P S (ept, mem)).1.pds i j) =
        f.get (ept.pds i j)) ∧
      (∀ a, f.get ((update_ept_memory_type P S (ept, mem)).2.word a) = f.get (mem.word a))) := by
  refine ⟨(update_ept_memory_type_inv P S ept mem).pml4_eq,
    (update_ept_memory_type_inv P S ept mem).pdpt_eq, ?_, ?_, ?_, ?_⟩
  · intro i j hl
    rcases update_pds P S ept mem i j with h | ⟨_, _, h⟩
    · exact h
    · rw [h, resync_pde_table P S _ hl]
  · intro i j b hb
    exact testBit_eq_outside _ _ (update_pds_outside P S ept mem i j).1
      (update_pds_outside P S ept mem i j).2 b hb
  · intro a b hb
    exact testBit_eq_outside _ _ (update_mem_outside P S ept mem a).1
      (update_mem_outside P S ept mem a).2 b hb
  · intro f hf
    refine ⟨fun i j => ?_, fun a => ?_⟩
    · exact get_eq_outside _ _ (update_pds_outside P S ept mem i j).1
        (update_pds_outside P S ept mem i j).2 f hf
    · exact get_eq_outside _ _ (update_mem_outside P S ept mem a).1
        (update_mem_outside P S ept mem a).2 f hf

/-- C10: mixed-topology resync. For every store (in particular a built one
with any subset of PD entries split, with arbitrary PTE contents) and every
snapshot `S` for which `calc_mtrr_mem_type` returns one memory type `t` for
every range, `update_ept_memory_type` leaves every PD entry's large-page flag
as it was, makes all 512 PTEs under every split PD entry read type `t`, and
makes every large-page PD entry read type `t`. -/
theorem resync_uniform {M : Type} (P : Platform M) (S : M) (ept : vcpu_ept_data)
    (mem : physical_memory) (t : Nat) (ht : t < 8) (hu : ∀ a l, P.calc_mtrr_mem_type S a l = t) :
    (∀ i j, ept_pde_2mb.large_page.get ((update_ept_memory_type P S (ept, mem)).1.pds i j) =
      ept_pde_2mb.large_page.get (ept.pds i j)) ∧
    (∀ i j, i < P.ept_pd_count → j < 512 →
      (ept_pde_2mb.large_page.get (ept.pds i j) = 0 → ∀ k, k < 512 →
        ept_pte.memory_type.get
          ((update_ept_memory_type P S (ept, mem)).2.word (pte_address P (ept.pds i j) k)) = t) ∧
      (ept_pde_2mb.large_page.get (ept.pds i j) = 1 →
        ept_pde_2mb.memory_type.get
          ((update_ept_memory_type P S (ept, mem)).1.pds i j) = t)) := by
  refine ⟨fun i j => ?_, fun i j hi hj => ⟨fun hl k hk => ?_, fun hl => ?_⟩⟩
  · exact get_eq_outside _ _ (update_pds_outside P S ept mem i j).1
      (update_pds_outside P S ept mem i j).2 ept_pde_2mb.large_page (Or.inr (by decide))
  · rw [(update_pte_type P S ept mem i j k hi hj hl hk).1, hu]
    exact Nat.mod_eq_of_lt ht
  · rw [update_pde_type P S ept mem i j hi hj hl, hu]
    exact Nat.mod_eq_of_lt ht

theorem resync_uniform_witness :
    (6 < 8) ∧ (∀ a l, uniformPlatform.calc_mtrr_mem_type () a l = 6) ∧
    ((∀ i j, ept_pde_2mb.large_page.get
        ((update_ept_memory_type uniformPlatform () (splitStore, splitMem)).1.pds i j) =
      ept_pde_2mb.large_page.get (splitStore.pds i j)) ∧
    (∀ i j, i < uniformPlatform.ept_pd_count → j < 512 →
      (ept_pde_2mb.large_page.get (splitStore.pds i j) = 0 → ∀ k, k < 512 →
        ept_pte.memory_type.get
          ((update_ept_memory_type uniformPlatform () (splitStore, splitMem)).2.word
            (pte_address uniformPlatform (splitStore.pds i j) k)) = 6) ∧
      (ept_pde_2mb.large_page.get (splitStore.pds i j) = 1 →
        ept_pde_2mb.memory_type.get
          ((update_ept_memory_type uniformPlatform () (splitStore, splitMem)).1.pds i j) = 6))) :=
  ⟨by decide, fun _ _ => rfl,
    resync_uniform uniformPlatform () splitStore splitMem 6 (by decide) (fun _ _ => rfl)⟩

/-! ## Further facts for the rebuild and resync laws (claims C11-C18) -/

/-- Two stores with the same three tables are the same store. -/
theorem vcpu_ept_data_eq (a b : vcpu_ept_data) (h1 : a.pml4 = b.pml4) (h2 : a.pdpt = b.pdpt)
    (h3 : a.pds = b.pds) : a = b := by
  cases a
  cases b
  simp only [vcpu_ept_data.mk.injEq]
  exact ⟨h1, h2, h3⟩

/-- Two memories with the same word at every address are the same memory. -/
theorem physical_memory_eq (a b : physical_memory) (h : ∀ x, a.word x = b.word x) : a = b := by
  cases a
  cases b
  simp only [physical_memory.mk.injEq]
  exact funext h

/-- The five constant field writes of lines 14-19 (and 32-37) give `0x407`. -/
theorem prepare_pml4e_flags :
    ept_pml4e.user_mode_execute.set (ept_pml4e.accessed.set (ept_pml4e.execute_access.set
      (ept_pml4e.write_access.set (ept_pml4e.read_access.set 0 1) 1) 1) 0) 1 = 0x407 := by
  decide

/-- The word `prepare_ept` writes to `pml4[0]`, field by field. -/
theorem prepare_pml4e_eq {M : Type} (P : Platform M) :
    prepare_pml4e P = 0x407 + (P.MmGetPhysicalAddress_pdpt / 2 ^ 12 % 2 ^ 36) * 2 ^ 12 := by
  simp only [prepare_pml4e]
  rw [prepare_pml4e_flags]
  simp only [BitField.get, BitField.set, ept_pml4e.page_frame_number, Nat.shiftRight_eq_div_pow]
  omega

/-- The word `prepare_ept` writes to `pdpt[i]`, field by field. -/
theorem prepare_pdpte_eq {M : Type} (P : Platform M) (i : Nat) :
    prepare_pdpte P i = 0x407 + (P.MmGetPhysicalAddress_pds i / 2 ^ 12 % 2 ^ 36) * 2 ^ 12 := by
  have hflags : ept_pdpte.user_mode_execute.set (ept_pdpte.accessed.set
      (ept_pdpte.execute_access.set (ept_pdpte.write_access.set
        (ept_pdpte.read_access.set 0 1) 1) 1) 0) 1 = 0x407 := by
    decide
  simp only [prepare_pdpte]
  rw [hflags]
  simp only [BitField.get, BitField.set, ept_pdpte.page_frame_number, Nat.shiftRight_eq_div_pow]
  omega

theorem pde_large_page_set_memory_type (w v : Nat) :
    ept_pde_2mb.large_page.get (ept_pde_2mb.memory_type.set w v) =
      ept_pde_2mb.large_page.get w := by
  simp only [BitField.get, BitField.set, ept_pde_2mb.large_page, ept_pde_2mb.memory_type]
  omega

theorem pde_pfn_set_memory_type (w v : Nat) :
    ept_pde_2mb.page_frame_number.get (ept_pde_2mb.memory_type.set w v) =
      ept_pde_2mb.page_frame_number.get w := by
  simp only [BitField.get, BitField.set, ept_pde_2mb.page_frame_number, ept_pde_2mb.memory_type]
  omega

theorem pde_memory_type_set_set (w v v' : Nat) :
    ept_pde_2mb.memory_type.set (ept_pde_2mb.memory_type.set w v) v' =
      ept_pde_2mb.memory_type.set w v' := by
  simp only [BitField.get, BitField.set, ept_pde_2mb.memory_type]
  omega

/-- A later pass over a PD word overrides an earlier one. -/
theorem resync_pde_absorb {M : Type} (P : Platform M) (S1 S2 : M) (w : Nat) :
    resync_pde P S2 (resync_pde P S1 w) = resync_pde P S2 w := by
  by_cases h : ept_pde_2mb.large_page.get w ≠ 0
  · have h1 : resync_pde P S1 w = ept_pde_2mb.memory_type.set w
        (P.calc_mtrr_mem_type S1
          (int_shl (ept_pde_2mb.page_frame_number.get w) 21) (0x1000 <<< 9)) := by
      unfold resync_pde
      rw [if_pos h]
    rw [h1]
    unfold resync_pde
    rw [pde_large_page_set_memory_type, if_pos h, if_pos h, pde_pfn_set_memory_type,
      pde_memory_type_set_set]
  · have h0 : ept_pde_2mb.large_page.get w = 0 := by omega
    rw [resync_pde_table P S1 w h0]

/-- A later pass over a PT word overrides an earlier one. -/
theorem resync_pte_absorb {M : Type} (P : Platform M) (S1 S2 : M) (w : Nat) :
    resync_pte P S2 (resync_pte P S1 w) = resync_pte P S2 w := by
  unfold resync_pte
  rw [pte_pfn_set_memory_type, pte_memory_type_set_set]

/-- A pass with snapshot `S` turns the PD word built with `S0` into the one
built with `S`. -/
theorem resync_pde_prepare_pde {M : Type} (P : Platform M) (S0 S : M) (i j : Nat) :
    resync_pde P S (prepare_pde P S0 i j) = prepare_pde P S i j := by
  have hl : ept_pde_2mb.large_page.get (prepare_pde P S0 i j) ≠ 0 := by
    rw [prepare_pde_large_page]
    decide
  have hp : ept_pde_2mb.page_frame_number.get (prepare_pde P S0 i j) =
      (i * 512 + j) % 2 ^ 27 := prepare_pde_pfn_mod P S0 i j
  have h3 : (0x1000 <<< 9) = 2 ^ 21 := by decide
  unfold resync_pde
  rw [if_pos hl, hp, h3, prepare_pde_eq P S0, prepare_pde_eq P S]
  generalize P.calc_mtrr_mem_type S0 _ _ = t0
  generalize P.calc_mtrr_mem_type S _ _ = t
  simp only [BitField.get, BitField.set, ept_pde_2mb.memory_type]
  omega

/-- The invariant of a whole pass, for a state given as one pair. -/
theorem update_inv {M : Type} (P : Platform M) (S : M) (s : vcpu_ept_data × physical_memory) :
    ResyncInv P S s.1 s.2 (fun i j => i < P.ept_pd_count ∧ j < 512)
      (update_ept_memory_type P S s) :=
  update_ept_memory_type_inv P S s.1 s.2

/-- Every PD word after a pass, as a function of the word before. -/
theorem update_pds_eq {M : Type} (P : Platform M) (S : M)
    (s : vcpu_ept_data × physical_memory) (i j : Nat) :
    (update_ept_memory_type P S s).1.pds i j =
      if i < P.ept_pd_count ∧ j < 512 then resync_pde P S (s.1.pds i j) else s.1.pds i j := by
  by_cases h : i < P.ept_pd_count ∧ j < 512
  · rw [if_pos h]
    exact (update_inv P S s).pds_done i j h
  · rw [if_neg h]
    exact (update_inv P S s).pds_todo i j h

/-- A word of a page table referenced from the mapped range is resynced. -/
theorem update_mem_touched {M : Type} (P : Platform M) (S : M)
    (s : vcpu_ept_data × physical_memory) (a : Nat)
    (h : ∃ i j k, i < P.ept_pd_count ∧ j < 512 ∧
      ept_pde_2mb.large_page.get (s.1.pds i j) = 0 ∧ k < 512 ∧
      a = pte_address P (s.1.pds i j) k) :
    (update_ept_memory_type P S s).2.word a = resync_pte P S (s.2.word a) := by
  obtain ⟨i, j, k, hi, hj, hl, hk, rfl⟩ := h
  exact (update_inv P S s).mem_done i j k ⟨hi, hj⟩ hl hk

/-- Every other word of the memory is left alone. -/
theorem update_mem_untouched {M : Type} (P : Platform M) (S : M)
    (s : vcpu_ept_data × physical_memory) (a : Nat)
    (h : ¬ ∃ i j k, i < P.ept_pd_count ∧ j < 512 ∧
      ept_pde_2mb.large_page.get (s.1.pds i j) = 0 ∧ k < 512 ∧
      a = pte_address P (s.1.pds i j) k) :
    (update_ept_memory_type P S s).2.word a = s.2.word a := by
  refine (update_inv P S s).mem_rest a (fun i j k hd hl hk ha => h ?_)
  exact ⟨i, j, k, hd.1, hd.2, hl, hk, ha⟩

theorem resync_pde_large_page {M : Type} (P : Platform M) (S : M) (w : Nat) :
    ept_pde_2mb.large_page.get (resync_pde P S w) = ept_pde_2mb.large_page.get w := by
  unfold resync_pde
  split
  · exact pde_large_page_set_memory_type w _
  · rfl

/-- A pass keeps the set of page-table words reachable from the mapped range. -/
theorem update_keeps_page_tables {M : Type} (P : Platform M) (S : M)
    (s : vcpu_ept_data × physical_memory) (a : Nat) :
    (∃ i j k, i < P.ept_pd_count ∧ j < 512 ∧
      ept_pde_2mb.large_page.get ((update_ept_memory_type P S s).1.pds i j) = 0 ∧ k < 512 ∧
      a = pte_address P ((update_ept_memory_type P S s).1.pds i j) k) ↔
    (∃ i j k, i < P.ept_pd_count ∧ j < 512 ∧
      ept_pde_2mb.large_page.get (s.1.pds i j) = 0 ∧ k < 512 ∧
      a = pte_address P (s.1.pds i j) k) := by
  have key : ∀ i j, i < P.ept_pd_count → j < 512 →
      (ept_pde_2mb.large_page.get ((update_ept_memory_type P S s).1.pds i j) =
        ept_pde_2mb.large_page.get (s.1.pds i j)) ∧
      (ept_pde_2mb.large_page.get (s.1.pds i j) = 0 →
        (update_ept_memory_type P S s).1.pds i j = s.1.pds i j) := by
    intro i j hi hj
    rw [update_pds_eq, if_pos ⟨hi, hj⟩]
    exact ⟨resync_pde_large_page P S _, fun h0 => resync_pde_table P S _ h0⟩
  constructor
  · rintro ⟨i, j, k, hi, hj, hl, hk, ha⟩
    obtain ⟨k1, k2⟩ := key i j hi hj
    rw [k1] at hl
    rw [k2 hl] at ha
    exact ⟨i, j, k, hi, hj, hl, hk, ha⟩
  · rintro ⟨i, j, k, hi, hj, hl, hk, ha⟩
    obtain ⟨k1, k2⟩ := key i j hi hj
    refine ⟨i, j, k, hi, hj, ?_, hk, ?_⟩
    · rw [k1]; exact hl
    · rw [k2 hl]; exact ha

/-- A second pass overrides the first: the law behind C17. -/
theorem update_update {M : Type} (P : Platform M) (S1 S2 : M)
    (s : vcpu_ept_data × physical_memory) :
    update_ept_memory_type P S2 (update_ept_memory_type P S1 s) =
      update_ept_memory_type P S2 s := by
  refine Prod.ext (vcpu_ept_data_eq _ _ ?_ ?_ ?_) (physical_memory_eq _ _ ?_)
  · rw [(update_inv P S2 _).pml4_eq, (update_inv P S1 s).pml4_eq, (update_inv P S2 s).pml4_eq]
  · rw [(update_inv P S2 _).pdpt_eq, (update_inv P S1 s).pdpt_eq, (update_inv P S2 s).pdpt_eq]
  · funext i j
    rw [update_pds_eq, update_pds_eq, update_pds_eq]
    by_cases h : i < P.ept_pd_count ∧ j < 512
    · rw [if_pos h, if_pos h, if_pos h, resync_pde_absorb]
    · rw [if_neg h, if_neg h, if_neg h]
  · intro a
    by_cases ht : ∃ i j k, i < P.ept_pd_count ∧ j < 512 ∧
        ept_pde_2mb.large_page.get (s.1.pds i j) = 0 ∧ k < 512 ∧
        a = pte_address P (s.1.pds i j) k
    · rw [update_mem_touched P S2 _ a ((update_keeps_page_tables P S1 s a).2 ht),
        update_mem_touched P S1 s a ht, update_mem_touched P S2 s a ht, resync_pte_absorb]
    · rw [update_mem_untouched P S2 _ a
          (fun h => ht ((update_keeps_page_tables P S1 s a).1 h)),
        update_mem_untouched P S1 s a ht, update_mem_untouched P S2 s a ht]

/-- The built store does not depend on the store it was built over. -/
theorem prepare_ept_indep {M : Type} (P : Platform M) (S : M) (s1 s2 : vcpu_ept_data) :
    prepare_ept P S s1 = prepare_ept P S s2 := by
  refine vcpu_ept_data_eq _ _ ?_ ?_ ?_
  · funext i
    rw [prepare_ept_pml4, prepare_ept_pml4]
  · funext i
    rw [prepare_ept_pdpt, prepare_ept_pdpt]
  · funext i j
    rw [prepare_ept_pds, prepare_ept_pds]

/-- A pass with `S2` over the store built with `S1` gives the store built with
`S2` and writes no memory: the law behind C11 and C18. -/
theorem update_prepare {M : Type} (P : Platform M) (S1 S2 : M) (ept : vcpu_ept_data)
    (mem : physical_memory) :
    update_ept_memory_type P S2 (prepare_ept P S1 ept, mem) = (prepare_ept P S2 ept, mem) := by
  refine Prod.ext (vcpu_ept_data_eq _ _ ?_ ?_ ?_) (physical_memory_eq _ _ ?_)
  · rw [(update_inv P S2 _).pml4_eq]
    funext i
    show (prepare_ept P S1 ept).pml4 i = (prepare_ept P S2 ept).pml4 i
    rw [prepare_ept_pml4, prepare_ept_pml4]
  · rw [(update_inv P S2 _).pdpt_eq]
    funext i
    show (prepare_ept P S1 ept).pdpt i = (prepare_ept P S2 ept).pdpt i
    rw [prepare_ept_pdpt, prepare_ept_pdpt]
  · funext i j
    rw [update_pds_eq]
    show (if i < P.ept_pd_count ∧ j < 512 then
        resync_pde P S2 ((prepare_ept P S1 ept).pds i j)
      else (prepare_ept P S1 ept).pds i j) = (prepare_ept P S2 ept).pds i j
    rw [prepare_ept_pds, prepare_ept_pds]
    by_cases h : i < P.ept_pd_count ∧ j < 512
    · simp only [if_pos h]
      exact resync_pde_prepare_pde P S1 S2 i j
    · simp only [if_neg h]
  · intro a
    refine update_mem_untouched P S2 _ a ?_
    rintro ⟨i, j, k, hi, hj, hl, _, _⟩
    have h1 : ept_pde_2mb.large_page.get ((prepare_ept P S1 ept).pds i j) = 1 := by
      rw [prepare_ept_pds, if_pos ⟨hi, hj⟩]
      exact prepare_pde_large_page P S1 i j
    have h0 : ept_pde_2mb.large_page.get ((prepare_ept P S1 ept).pds i j) = 0 := hl
    omega

/-- In a word made of the constant flags `0x487`, a 27-bit frame number at bit
21 and a 3-bit memory type at bit 3, every set bit lies in one of those
fields. -/
theorem pde_word_bits (p m b : Nat) (hp : p < 2 ^ 27) (hm : m < 8)
    (hb : (0x487 + p * 2 ^ 21 + m * 8).testBit b = true) :
    b < 6 ∨ b = 7 ∨ b = 10 ∨ (21 ≤ b ∧ b < 48) := by
  by_cases h48 : 48 ≤ b
  · have hlt : 0x487 + p * 2 ^ 21 + m * 8 < 2 ^ b := by
      have h1 : 0x487 + p * 2 ^ 21 + m * 8 < 2 ^ 48 := by omega
      exact lt_of_lt_of_le h1 (Nat.pow_le_pow_right (by decide) h48)
    rw [Nat.testBit_lt_two_pow hlt] at hb
    exact absurd hb (by decide)
  · by_contra hne
    have hcases : b = 6 ∨ b = 8 ∨ b = 9 ∨ b = 11 ∨ b = 12 ∨ b = 13 ∨ b = 14 ∨ b = 15 ∨
        b = 16 ∨ b = 17 ∨ b = 18 ∨ b = 19 ∨ b = 20 := by omega
    rw [Nat.testBit_to_div_mod, decide_eq_true_eq] at hb
    rcases hcases with h | h | h | h | h | h | h | h | h | h | h | h | h <;>
      (subst h; omega)

/-! ## Rebuild and resync laws (claims C11-C18) -/

/-- C11: no-op resync. For every store, every page-table memory and every MTRR
snapshot `S`, `prepare_ept` with `S` followed by `update_ept_memory_type` with
the same `S` leaves the store bit-for-bit equal to the result of `prepare_ept`
alone, and writes nothing to memory. -/
theorem resync_after_build_same_snapshot {M : Type} (P : Platform M) (S : M)
    (ept : vcpu_ept_data) (mem : physical_memory) :
    update_ept_memory_type P S (prepare_ept P S ept, mem) = (prepare_ept P S ept, mem) :=
  update_prepare P S S ept mem

/-- C12: `prepare_ept` is idempotent. For every store and every MTRR snapshot
`S`, under one address-translation service, `prepare_ept` run twice in a row
gives a store bit-identical to running it once. -/
theorem prepare_ept_idempotent {M : Type} (P : Platform M) (S : M) (ept : vcpu_ept_data) :
    prepare_ept P S (prepare_ept P S ept) = prepare_ept P S ept :=
  prepare_ept_indep P S (prepare_ept P S ept) ept

/-- C13: when the address-translation service returns page-aligned physical
addresses below `2^48` (representable in the 36-bit pointer field), after
`prepare_ept` the pointer of each table-pointing entry reconstitutes to the
assigned base: `pml4[0].page_frame_number << 12` is the physical address of the
PDPT, and for every `i < ept_pd_count`, `pdpt[i].page_frame_number << 12` is
the physical address of PD number `i`. -/
theorem prepare_ept_pointers {M : Type} (P : Platform M) (S : M) (ept : vcpu_ept_data)
    (hpdpt : P.MmGetPhysicalAddress_pdpt % 2 ^ 12 = 0 ∧ P.MmGetPhysicalAddress_pdpt < 2 ^ 48)
    (hpds : ∀ i, i < P.ept_pd_count →
      P.MmGetPhysicalAddress_pds i % 2 ^ 12 = 0 ∧ P.MmGetPhysicalAddress_pds i < 2 ^ 48) :
    ept_pml4e.page_frame_number.get ((prepare_ept P S ept).pml4 0) <<< 12 =
      P.MmGetPhysicalAddress_pdpt ∧
    ∀ i, i < P.ept_pd_count →
      ept_pdpte.page_frame_number.get ((prepare_ept P S ept).pdpt i) <<< 12 =
        P.MmGetPhysicalAddress_pds i := by
  refine ⟨?_, ?_⟩
  · rw [prepare_ept_pml4, if_pos rfl, prepare_pml4e_eq]
    obtain ⟨h1, h2⟩ := hpdpt
    generalize P.MmGetPhysicalAddress_pdpt = x at h1 h2 ⊢
    simp only [BitField.get, ept_pml4e.page_frame_number, Nat.shiftLeft_eq]
    omega
  · intro i hi
    rw [prepare_ept_pdpt, if_pos hi, prepare_pdpte_eq]
    obtain ⟨h1, h2⟩ := hpds i hi
    generalize P.MmGetPhysicalAddress_pds i = x at h1 h2 ⊢
    simp only [BitField.get, ept_pdpte.page_frame_number, Nat.shiftLeft_eq]
    omega

/-- The tables of the demo platform lie at page-aligned addresses below `2^48`. -/
theorem demoPlatform_pds_aligned (i : Nat) (_hi : i < demoPlatform.ept_pd_count) :
    demoPlatform.MmGetPhysicalAddress_pds i % 2 ^ 12 = 0 ∧
      demoPlatform.MmGetPhysicalAddress_pds i < 2 ^ 48 := by
  have hi2 : i < 2 := _hi
  show (0x2000 + i * 0x1000) % 2 ^ 12 = 0 ∧ 0x2000 + i * 0x1000 < 2 ^ 48
  omega

theorem prepare_ept_pointers_witness :
    (demoPlatform.MmGetPhysicalAddress_pdpt % 2 ^ 12 = 0 ∧
      demoPlatform.MmGetPhysicalAddress_pdpt < 2 ^ 48) ∧
    (∀ i, i < demoPlatform.ept_pd_count →
      demoPlatform.MmGetPhysicalAddress_pds i % 2 ^ 12 = 0 ∧
        demoPlatform.MmGetPhysicalAddress_pds i < 2 ^ 48) ∧
    (ept_pml4e.page_frame_number.get ((prepare_ept demoPlatform () zeroStore).pml4 0) <<< 12 =
      demoPlatform.MmGetPhysicalAddress_pdpt ∧
    ∀ i, i < demoPlatform.ept_pd_count →
      ept_pdpte.page_frame_number.get ((prepare_ept demoPlatform () zeroStore).pdpt i) <<< 12 =
        demoPlatform.MmGetPhysicalAddress_pds i) :=
  ⟨by decide, demoPlatform_pds_aligned,
    prepare_ept_pointers demoPlatform () zeroStore (by decide) demoPlatform_pds_aligned⟩

/-- C14: after `prepare_ept` on a store with arbitrary prior contents exactly
one top-level entry is active and the unmapped tail is zero: `pml4[0]` is
non-zero with read, write and execute set, every other PML4 entry is zero,
every PDPT entry at an index `≥ ept_pd_count` is zero, and every PDPT entry at
an index `< ept_pd_count` is non-zero with read, write and execute set. -/
theorem prepare_ept_single_branch {M : Type} (P : Platform M) (S : M) (ept : vcpu_ept_data) :
    (∀ i, i ≠ 0 → (prepare_ept P S ept).pml4 i = 0) ∧
    ((prepare_ept P S ept).pml4 0 ≠ 0 ∧
      ept_pml4e.read_access.get ((prepare_ept P S ept).pml4 0) = 1 ∧
      ept_pml4e.write_access.get ((prepare_ept P S ept).pml4 0) = 1 ∧
      ept_pml4e.execute_access.get ((prepare_ept P S ept).pml4 0) = 1) ∧
    (∀ i, P.ept_pd_count ≤ i → (prepare_ept P S ept).pdpt i = 0) ∧
    (∀ i, i < P.ept_pd_count →
      (prepare_ept P S ept).pdpt i ≠ 0 ∧
      ept_pdpte.read_access.get ((prepare_ept P S ept).pdpt i) = 1 ∧
      ept_pdpte.write_access.get ((prepare_ept P S ept).pdpt i) = 1 ∧
      ept_pdpte.execute_access.get ((prepare_ept P S ept).pdpt i) = 1) := by
  refine ⟨?_, ?_, ?_, ?_⟩
  · intro i hi
    rw [prepare_ept_pml4, if_neg hi]
  · rw [prepare_ept_pml4, if_pos rfl, prepare_pml4e_eq]
    generalize P.MmGetPhysicalAddress_pdpt = x
    simp only [BitField.get, ept_pml4e.read_access, ept_pml4e.write_access,
      ept_pml4e.execute_access]
    omega
  · intro i hi
    rw [prepare_ept_pdpt, if_neg (by omega)]
  · intro i hi
    rw [prepare_ept_pdpt, if_pos hi, prepare_pdpte_eq]
    generalize P.MmGetPhysicalAddress_pds i = x
    simp only [BitField.get, ept_pdpte.read_access, ept_pdpte.write_access,
      ept_pdpte.execute_access]
    omega

/-- C15: after `prepare_ept`, `pml4[0]`, every `pdpt[i]` with
`i < ept_pd_count` and every PD entry `[i][j]` with `i < ept_pd_count`,
`j < 512` has read, write, execute and user-mode-execute set and accessed
clear; every such PD entry also has large-page set, suppress-VE, dirty and
ignore-PAT clear, and every set bit of it lies in the permission bits
(0, 1, 2, 10), the memory type (3-5), the large-page bit (7) or the frame
number (21-47). -/
theorem prepare_ept_entry_flags {M : Type} (P : Platform M) (S : M) (ept : vcpu_ept_data) :
    (ept_pml4e.read_access.get ((prepare_ept P S ept).pml4 0) = 1 ∧
      ept_pml4e.write_access.get ((prepare_ept P S ept).pml4 0) = 1 ∧
      ept_pml4e.execute_access.get ((prepare_ept P S ept).pml4 0) = 1 ∧
      ept_pml4e.user_mode_execute.get ((prepare_ept P S ept).pml4 0) = 1 ∧
      ept_pml4e.accessed.get ((prepare_ept P S ept).pml4 0) = 0) ∧
    (∀ i, i < P.ept_pd_count →
      ept_pdpte.read_access.get ((prepare_ept P S ept).pdpt i) = 1 ∧
      ept_pdpte.write_access.get ((prepare_ept P S ept).pdpt i) = 1 ∧
      ept_pdpte.execute_access.get ((prepare_ept P S ept).pdpt i) = 1 ∧
      ept_pdpte.user_mode_execute.get ((prepare_ept P S ept).pdpt i) = 1 ∧
      ept_pdpte.accessed.get ((prepare_ept P S ept).pdpt i) = 0) ∧
    (∀ i j, i < P.ept_pd_count → j < 512 →
      ept_pde_2mb.read_access.get ((prepare_ept P S ept).pds i j) = 1 ∧
      ept_pde_2mb.write_access.get ((prepare_ept P S ept).pds i j) = 1 ∧
      ept_pde_2mb.execute_access.get ((prepare_ept P S ept).pds i j) = 1 ∧
      ept_pde_2mb.user_mode_execute.get ((prepare_ept P S ept).pds i j) = 1 ∧
      ept_pde_2mb.accessed.get ((prepare_ept P S ept).pds i j) = 0 ∧
      ept_pde_2mb.large_page.get ((prepare_ept P S ept).pds i j) = 1 ∧
      ept_pde_2mb.suppress_ve.get ((prepare_ept P S ept).pds i j) = 0 ∧
      ept_pde_2mb.dirty.get ((prepare_ept P S ept).pds i j) = 0 ∧
      ept_pde_2mb.ignore_pat.get ((prepare_ept P S ept).pds i j) = 0 ∧
      ∀ b, ((prepare_ept P S ept).pds i j).testBit b = true →
        b < 6 ∨ b = 7 ∨ b = 10 ∨ (21 ≤ b ∧ b < 48)) := by
  refine ⟨?_, ?_, ?_⟩
  · rw [prepare_ept_pml4, if_pos rfl, prepare_pml4e_eq]
    generalize P.MmGetPhysicalAddress_pdpt = x
    simp only [BitField.get, ept_pml4e.read_access, ept_pml4e.write_access,
      ept_pml4e.execute_access, ept_pml4e.user_mode_execute, ept_pml4e.accessed]
    omega
  · intro i hi
    rw [prepare_ept_pdpt, if_pos hi, prepare_pdpte_eq]
    generalize P.MmGetPhysicalAddress_pds i = x
    simp only [BitField.get, ept_pdpte.read_access, ept_pdpte.write_access,
      ept_pdpte.execute_access, ept_pdpte.user_mode_execute, ept_pdpte.accessed]
    omega
  · intro i j hi hj
    rw [prepare_ept_pds, if_pos ⟨hi, hj⟩, prepare_pde_eq]
    generalize P.calc_mtrr_mem_type S _ _ = t
    have hp : (i * 512 + j) % 2 ^ 27 < 2 ^ 27 := Nat.mod_lt _ (by decide)
    have ht : t % 8 < 8 := Nat.mod_lt _ (by decide)
    generalize (i * 512 + j) % 2 ^ 27 = p at hp ⊢
    generalize t % 8 = m at ht ⊢
    refine ⟨?_, ?_, ?_, ?_, ?_, ?_, ?_, ?_, ?_, fun b hb => pde_word_bits p m b hp ht hb⟩ <;>
      (simp only [BitField.get, ept_pde_2mb.read_access, ept_pde_2mb.write_access,
        ept_pde_2mb.execute_access, ept_pde_2mb.user_mode_execute, ept_pde_2mb.accessed,
        ept_pde_2mb.large_page, ept_pde_2mb.suppress_ve, ept_pde_2mb.dirty,
        ept_pde_2mb.ignore_pat]
       omega)

/-- C16: the result of `prepare_ept` does not depend on what the store held
before: for any two stores `s1` and `s2`, under one address-translation service
and one MTRR snapshot, `prepare_ept` gives bit-identical stores. -/
theorem prepare_ept_forgets_store {M : Type} (P : Platform M) (S : M)
    (s1 s2 : vcpu_ept_data) :
    prepare_ept P S s1 = prepare_ept P S s2 :=
  prepare_ept_indep P S s1 s2

/-- C17: `update_ept_memory_type` depends only on the latest snapshot: for every
store, every page-table memory and all snapshots `S1`, `S2`, a pass with `S1`
followed by a pass with `S2` gives the same store and the same memory as a pass
with `S2` alone; in particular two passes with one snapshot equal one pass. -/
theorem resync_latest_snapshot {M : Type} (P : Platform M) (S1 S2 : M)
    (ept : vcpu_ept_data) (mem : physical_memory) :
    update_ept_memory_type P S2 (update_ept_memory_type P S1 (ept, mem)) =
      update_ept_memory_type P S2 (ept, mem) ∧
    update_ept_memory_type P S1 (update_ept_memory_type P S1 (ept, mem)) =
      update_ept_memory_type P S1 (ept, mem) :=
  ⟨update_update P S1 S2 (ept, mem), update_update P S1 S1 (ept, mem)⟩

/-- C18: resyncing a freshly built store is the same as rebuilding it: for
every store, every page-table memory and all snapshots `S1`, `S2`, under one
address-translation service, `prepare_ept` with `S1` followed by
`update_ept_memory_type` with `S2` gives the store `prepare_ept` builds with
`S2`, and writes nothing to memory. -/
theorem resync_after_build_is_rebuild {M : Type} (P : Platform M) (S1 S2 : M)
    (ept : vcpu_ept_data) (mem : physical_memory) :
    (update_ept_memory_type P S2 (prepare_ept P S1 ept, mem)).1 = prepare_ept P S2 ept ∧
    (update_ept_memory_type P S2 (prepare_ept P S1 ept, mem)).2 = mem := by
  rw [update_prepare P S1 S2 ept mem]
  exact ⟨rfl, rfl⟩

end hv
